import Mathlib

/-!
# Clipper: playback core

A shallow embedding of `src/audio_loader.c` and `src/audio_player.c`.

* Machine integers are `Nat`/`Int` with the conversions C performs written out:
  a value stored in an `unsigned int` is reduced mod `2^32` (`toUInt32`), one stored
  in an `int` wraps (`toInt32`), an `int` stored in a `size_t` is reduced mod `2^64`
  (`toSizeT`).  The `size_t` counters of the loader count floats held in memory, so
  they stay far below `2^64` and are plain naturals.
* A `float` sample is only ever copied, so it is kept as its 32-bit pattern
  (`Sample`); pattern `0` is `+0.0f`, which is what `memset(.., 0, ..)` writes.
* A `float` time or speed is the rational number it denotes.  Every float operation
  the sources perform rounds its exact result to binary32 (`roundF32`: nearest, ties
  to even, 24-bit significand, subnormals below `2^-126`); a result of magnitude
  `2^128` or more stands for an infinity, and NaN is not represented.
* A C pointer is `Ptr`: `null`, `live` (pointing at data) or `dangling` (freed or
  destroyed, yet still non-null).  An operation that would dereference a null or
  dangling pointer, free a block twice, read past a block or overflow a signed
  integer has no defined result and returns `none`.
* The time-stretch engine (`vendor/sonic.h`) is outside the repository sources: it
  is a parameter, `SonicApi`.
-/

namespace Clipper

/-! ## Data model -/

/-- One 32-bit float, as its bit pattern. -/
abbrev Sample := Nat

/-- The value of `#define SAMPLE_RATE 44100`. -/
def SAMPLE_RATE : Nat := 44100

/-- The value of `#define CHANNELS 2`. -/
def CHANNELS : Nat := 2

/-- A C pointer to a block holding a value of type `α`. -/
inductive Ptr (α : Type) where
  | null : Ptr α
  | live (a : α) : Ptr α
  | dangling : Ptr α
deriving DecidableEq, Repr

/-- The C test `if (p)`. -/
def Ptr.nonNull {α : Type} : Ptr α → Bool
  | Ptr.null => false
  | _ => true

/-- The struct `AudioBuffer` of `audio_loader.h`. -/
structure AudioBuffer where
  samples : Ptr (List Sample)
  sampleCount : Nat
  frameCount : Nat
  sampleRate : Int
  channels : Int
deriving DecidableEq, Repr

/-- The initialiser `AudioBuffer buffer = {0}`. -/
def AudioBuffer.zero : AudioBuffer :=
  { samples := Ptr.null, sampleCount := 0, frameCount := 0, sampleRate := 0, channels := 0 }

/-- Conversion of an integer value to `int` (two's complement wrap). -/
def toInt32 (n : Int) : Int := (n + 2 ^ 31) % 2 ^ 32 - 2 ^ 31

/-- Conversion of an integer value to `unsigned int`. -/
def toUInt32 (n : Nat) : Nat := n % 2 ^ 32

/-- Conversion of an `int` value to `size_t`. -/
def toSizeT (i : Int) : Nat := (i % 2 ^ 64).toNat

/-- The integer nearest to `q`, the even one when `q` lies halfway between two. -/
def roundHalfEven (q : ℚ) : Int :=
  if q - ⌊q⌋ < 1 / 2 then ⌊q⌋
  else if q - ⌊q⌋ > 1 / 2 then ⌊q⌋ + 1
  else if ⌊q⌋ % 2 = 0 then ⌊q⌋ else ⌊q⌋ + 1

/-- Rounding of a real result to binary32: with `2^e <= |x| < 2^(e+1)` (and `e` not
below -126, where the subnormals start) the result is the multiple of `2^(e-23)`
nearest to `x`, ties to even. -/
def roundF32 (x : ℚ) : ℚ :=
  if x = 0 then 0
  else
    let e : Int := max (Int.log 2 |x|) (-126)
    (roundHalfEven (x / (2 : ℚ) ^ (e - 23)) : ℚ) * (2 : ℚ) ^ (e - 23)

/-- The float product `a * b`. -/
def fmul (a b : ℚ) : ℚ := roundF32 (a * b)

/-- The float quotient `a / b`. -/
def fdiv (a b : ℚ) : ℚ := roundF32 (a / b)

/-! ## audio_loader.c -/

/-- What one call of `LoadAudioDataFFmpeg` meets outside the program: the length of
the file name, whether `popen` and `malloc` succeed, whether `realloc` to a given
byte size succeeds, the successive results of `fread` on the decoder's pipe (each
the items stored in `tempBuffer`; the loop ends at the first empty one, or when
the list is exhausted), and the status returned by `pclose`. -/
structure DecoderRun where
  fileNameLen : Nat
  popenOk : Bool
  mallocOk : Bool
  reallocOk : Nat → Bool
  chunks : List (List Sample)
  exitCode : Int

/-- The locals `data`, `count`, `capacity` of the read loop; `data` lists the
`count` floats stored so far. -/
structure ReadState where
  data : List Sample
  count : Nat
  capacity : Nat
deriving DecidableEq, Repr

/-- The state before the first `fread`: `capacity = 1024 * 1024`, `count = 0`. -/
def ReadState.init : ReadState := { data := [], count := 0, capacity := 1024 * 1024 }

/-- One iteration of the read loop for a chunk of `samplesRead > 0` floats:
grow if needed (`none` when `realloc` fails), then `memcpy` and `count += samplesRead`. -/
def readStep (reallocOk : Nat → Bool) (st : ReadState) (chunk : List Sample) :
    Option ReadState :=
  if st.count + chunk.length > st.capacity then
    let capacity := st.capacity * 2
    if reallocOk (capacity * 4) then
      some { data := st.data ++ chunk, count := st.count + chunk.length, capacity := capacity }
    else none
  else
    some { data := st.data ++ chunk, count := st.count + chunk.length, capacity := st.capacity }

/-- The loop `while ((samplesRead = fread(..)) > 0) { .. }`; `none` is the early
return after a failed `realloc`. -/
def readLoop (reallocOk : Nat → Bool) : List (List Sample) → ReadState → Option ReadState
  | [], st => some st
  | chunk :: rest, st =>
    if chunk.length = 0 then some st
    else
      match readStep reallocOk st chunk with
      | none => none
      | some st1 => readLoop reallocOk rest st1

/-- The function `LoadAudioDataFFmpeg`. -/
def LoadAudioDataFFmpeg (run : DecoderRun) : AudioBuffer :=
  if run.fileNameLen > 1024 then AudioBuffer.zero
  else if !run.popenOk then AudioBuffer.zero
  else if !run.mallocOk then AudioBuffer.zero
  else
    match readLoop run.reallocOk run.chunks ReadState.init with
    | none => AudioBuffer.zero
    | some st =>
      if st.count = 0 then AudioBuffer.zero
      else
        { samples := Ptr.live st.data
          channels := 2
          sampleRate := 44100
          sampleCount := toUInt32 st.count
          frameCount := toUInt32 (st.count / 2) }

/-- The function `FreeAudioBuffer`: the block, when there is one, is released;
releasing a block that was already released is undefined. -/
def FreeAudioBuffer (buffer : AudioBuffer) : Option AudioBuffer :=
  match buffer.samples with
  | Ptr.null => some buffer
  | Ptr.live _ => some { buffer with samples := Ptr.dangling }
  | Ptr.dangling => none

/-- The floats the decoder's pipe delivered: the `fread` results up to the first
empty one, in order. -/
def decodedStream : List (List Sample) → List Sample
  | [] => []
  | chunk :: rest => if chunk.length = 0 then [] else chunk ++ decodedStream rest

/-- The pipe was opened: the name passed the length check and `popen` succeeded. -/
def DecoderRun.pipeOpened (run : DecoderRun) : Prop :=
  run.fileNameLen ≤ 1024 ∧ run.popenOk = true

/-- Every allocation of the run succeeds. -/
def DecoderRun.allocsOk (run : DecoderRun) : Prop :=
  run.mallocOk = true ∧ ∀ bytes, run.reallocOk bytes = true

/-! ## The time-stretch engine (external) -/

/-- The operations of `vendor/sonic.h` that the player calls, on an engine state of
type `σ`.  `createStream` is `none` when `sonicCreateStream` returns `NULL`.
`writeFloatToStream e samples n` receives the `n * CHANNELS` floats the engine
reads from the pointer it is given.  `readFloatFromStream e max` yields the frames
the engine stores at the start of the output buffer, one pair of floats per frame;
the value C returns is their number. -/
structure SonicApi (σ : Type) where
  createStream : Int → Int → Option σ
  setSpeed : σ → ℚ → σ
  setSampleRate : σ → Int → σ
  samplesAvailable : σ → Int
  writeFloatToStream : σ → List Sample → Int → σ
  readFloatFromStream : σ → Int → List (Sample × Sample) × σ

/-- The engine honours its read contract: asked for `maxFrames ≥ 0` frames, it never
stores more than that. -/
def SonicApi.readBounded {σ : Type} (api : SonicApi σ) : Prop :=
  ∀ (e : σ) (maxFrames : Int), 0 ≤ maxFrames →
    ((api.readFloatFromStream e maxFrames).1.length : Int) ≤ maxFrames

/-- The floats of a list of stereo frames, interleaved as they lie in memory. -/
def interleave : List (Sample × Sample) → List Sample
  | [] => []
  | f :: rest => f.1 :: f.2 :: interleave rest

/-! ## audio_player.c -/

/-- The file-scope variables of `audio_player.c`.  `currentAudio` only ever holds
`NULL` or `&localAudioBuffer`, so it is a flag; the device `stream` is not part
of the model. -/
structure PlayerState (σ : Type) where
  timeStretcher : Ptr σ
  currentAudio : Bool
  localAudioBuffer : AudioBuffer
  currentFrameIndex : Nat
  isPlaying : Bool
  currentSpeed : ℚ
  isSystemInitialized : Bool

/-- The values the file-scope variables start with. -/
def PlayerState.initial (σ : Type) : PlayerState σ :=
  { timeStretcher := Ptr.null
    currentAudio := false
    localAudioBuffer := AudioBuffer.zero
    currentFrameIndex := 0
    isPlaying := false
    currentSpeed := 1
    isSystemInitialized := false }

/-- The function `InitAudioPlayerSystem`. -/
def InitAudioPlayerSystem {σ : Type} (api : SonicApi σ) (st : PlayerState σ) :
    Option (PlayerState σ) :=
  if st.isSystemInitialized then some st
  else
    match api.createStream 44100 2 with
    | none => none
    | some e =>
      some { st with timeStretcher := Ptr.live (api.setSpeed e st.currentSpeed)
                     isSystemInitialized := true }

/-- The function `CloseAudioPlayerSystem`. -/
def CloseAudioPlayerSystem {σ : Type} (st : PlayerState σ) : Option (PlayerState σ) :=
  if !st.isSystemInitialized then some st
  else
    let destroyed : Option (Ptr σ) :=
      match st.timeStretcher with
      | Ptr.null => some Ptr.null
      | Ptr.live _ => some Ptr.dangling
      | Ptr.dangling => none
    match destroyed with
    | none => none
    | some ts =>
      match FreeAudioBuffer st.localAudioBuffer with
      | none => none
      | some buf =>
        some { st with timeStretcher := ts, localAudioBuffer := buf
                       isSystemInitialized := false }

/-- The function `LoadTrack`; the first component is the value it returns. -/
def LoadTrack {σ : Type} (api : SonicApi σ) (run : DecoderRun) (st : PlayerState σ) :
    Option (Bool × PlayerState σ) :=
  match FreeAudioBuffer st.localAudioBuffer with
  | none => none
  | some _ =>
    let st1 := { st with localAudioBuffer := LoadAudioDataFFmpeg run }
    if !st1.localAudioBuffer.samples.nonNull then some (false, st1)
    else
      let st2 := { st1 with currentAudio := true, currentFrameIndex := 0, isPlaying := false }
      match st2.timeStretcher with
      | Ptr.null => some (true, st2)
      | Ptr.live e => some (true, { st2 with timeStretcher := Ptr.live (api.setSampleRate e 44100) })
      | Ptr.dangling => none

/-- The `n` floats at offset `start` of the block `samples` points at; `none` when
the pointer is not live or the floats are not all inside the block. -/
def readSamples (samples : Ptr (List Sample)) (start n : Nat) : Option (List Sample) :=
  match samples with
  | Ptr.live data => if start + n ≤ data.length then some ((data.drop start).take n) else none
  | _ => none

/-- What the feed loop leaves behind: the engine, the cursor, and the writes it made
to the engine, each as (cursor at the write, `chunkFrames`). -/
structure FeedResult (σ : Type) where
  engine : σ
  cursor : Nat
  writes : List (Nat × Nat)

/-- The loop `while (sonicSamplesAvailable(timeStretcher) < samplesNeeded) { .. }` of
`AudioInputCallback`.  The first argument bounds the iterations; the callback passes
`frameCount - currentFrameIndex`, and every iteration that does not leave the loop
moves the cursor forward, so at `0` the loop is at its exit (either the engine has
enough or the `break` is taken). -/
def feedLoop {σ : Type} (api : SonicApi σ) (data : Ptr (List Sample)) (frameCount : Nat)
    (samplesNeeded : Int) : Nat → σ → Nat → Option (FeedResult σ)
  | 0, e, cursor => some { engine := e, cursor := cursor, writes := [] }
  | fuel + 1, e, cursor =>
    if api.samplesAvailable e < samplesNeeded then
      if cursor ≥ frameCount then some { engine := e, cursor := cursor, writes := [] }
      else
        let chunkFrames : Nat := if cursor + 1024 > frameCount then frameCount - cursor else 1024
        match readSamples data (cursor * CHANNELS) (chunkFrames * CHANNELS) with
        | none => none
        | some chunk =>
          match feedLoop api data frameCount samplesNeeded fuel
              (api.writeFloatToStream e chunk chunkFrames) (cursor + chunkFrames) with
          | none => none
          | some r => some { r with writes := (cursor, chunkFrames) :: r.writes }
    else some { engine := e, cursor := cursor, writes := [] }

/-- The call `memset(output + start, 0, n * sizeof(float))` on the output block. -/
def memsetZero (output : Nat → Sample) (start n : Nat) : Nat → Sample :=
  fun i => if start ≤ i ∧ i < start + n then 0 else output i

/-- The floats `written` stored at the start of the output block. -/
def storeAt0 (output : Nat → Sample) (written : List Sample) : Nat → Sample :=
  fun i => written.getD i (output i)

/-- Whether a value fits an `int`. -/
def fitsInt32 (i : Int) : Bool := decide (-(2 : Int) ^ 31 ≤ i) && decide (i < 2 ^ 31)

/-- The function `AudioInputCallback`; `output` is the device block, indexed by float,
and `frames` the `unsigned int` count asked for.  The result holds the block after
the call. -/
def AudioInputCallback {σ : Type} (api : SonicApi σ) (output : Nat → Sample) (frames : Nat)
    (st : PlayerState σ) : Option ((Nat → Sample) × PlayerState σ) :=
  if !st.isPlaying || !st.currentAudio || !st.localAudioBuffer.samples.nonNull then
    some (memsetZero output 0 (toUInt32 (frames * CHANNELS)), st)
  else
    match st.timeStretcher with
    | Ptr.live e =>
      let samplesNeeded : Int := toInt32 frames
      let frameCount := st.localAudioBuffer.frameCount
      match feedLoop api st.localAudioBuffer.samples frameCount samplesNeeded
          (frameCount - st.currentFrameIndex) e st.currentFrameIndex with
      | none => none
      | some fed =>
        let rd := api.readFloatFromStream fed.engine samplesNeeded
        let readFrames : Int := rd.1.length
        let out1 := storeAt0 output (interleave rd.1)
        let st1 := { st with timeStretcher := Ptr.live rd.2, currentFrameIndex := fed.cursor }
        if readFrames < samplesNeeded then
          if fitsInt32 (readFrames * 2) && fitsInt32 ((samplesNeeded - readFrames) * 2) then
            let out2 := memsetZero out1 (readFrames * 2).toNat ((samplesNeeded - readFrames) * 2).toNat
            if fed.cursor ≥ frameCount ∧ api.samplesAvailable rd.2 = 0 then
              some (out2, { st1 with isPlaying := false, currentFrameIndex := 0 })
            else some (out2, st1)
          else none
        else some (out1, st1)
    | _ => none

/-- The function `PlayTrack`. -/
def PlayTrack {σ : Type} (st : PlayerState σ) : PlayerState σ :=
  if st.currentAudio && st.localAudioBuffer.samples.nonNull then { st with isPlaying := true }
  else st

/-- The function `PauseTrack`. -/
def PauseTrack {σ : Type} (st : PlayerState σ) : PlayerState σ :=
  { st with isPlaying := false }

/-- The function `IsTrackPlaying`. -/
def IsTrackPlaying {σ : Type} (st : PlayerState σ) : Bool := st.isPlaying

/-- The function `GetTrackTime`: the count is converted to `float`, then divided by
`SAMPLE_RATE` (44100, exact as a float). -/
def GetTrackTime {σ : Type} (st : PlayerState σ) : ℚ :=
  if !st.currentAudio then 0 else fdiv (roundF32 (st.currentFrameIndex : ℚ)) 44100

/-- The function `GetTrackDuration`. -/
def GetTrackDuration {σ : Type} (st : PlayerState σ) : ℚ :=
  if !st.currentAudio then 0 else fdiv (roundF32 (st.localAudioBuffer.frameCount : ℚ)) 44100

/-- The C conversion `(int)x` of a float value: the fraction is dropped. -/
def truncToZero (x : ℚ) : Int := Int.tdiv x.num x.den

/-- The function `SeekTrack`, for a float `time`.  The product `time * SAMPLE_RATE` is a
float product; converting a float whose integer part does not fit an `int` is
undefined. -/
def SeekTrack {σ : Type} (api : SonicApi σ) (time : ℚ) (st : PlayerState σ) :
    Option (PlayerState σ) :=
  if !st.currentAudio then some st
  else
    let frame0 := truncToZero (fmul time 44100)
    if !fitsInt32 frame0 then none
    else
      let frame1 : Int := if frame0 < 0 then 0 else frame0
      let frame2 : Int :=
        if frame1 > toInt32 st.localAudioBuffer.frameCount then
          toInt32 st.localAudioBuffer.frameCount
        else frame1
      match st.timeStretcher with
      | Ptr.live e =>
        some { st with timeStretcher := Ptr.live (api.setSampleRate e 44100)
                       currentFrameIndex := toSizeT frame2 }
      | _ => none

/-- The function `StopTrack`. -/
def StopTrack {σ : Type} (api : SonicApi σ) (st : PlayerState σ) : Option (PlayerState σ) :=
  SeekTrack api 0 { st with isPlaying := false }

/-- The function `SetTrackSpeed`. -/
def SetTrackSpeed {σ : Type} (api : SonicApi σ) (speed : ℚ) (st : PlayerState σ) :
    Option (PlayerState σ) :=
  let speed1 : ℚ := if speed < 1 / 2 then 1 / 2 else speed
  let speed2 : ℚ := if speed1 > 3 then 3 else speed1
  let st1 := { st with currentSpeed := speed2 }
  match st1.timeStretcher with
  | Ptr.null => some st1
  | Ptr.live e => some { st1 with timeStretcher := Ptr.live (api.setSpeed e speed2) }
  | Ptr.dangling => none

/-- The function `GetTrackSpeed`. -/
def GetTrackSpeed {σ : Type} (st : PlayerState σ) : ℚ := st.currentSpeed

/-- The function `GetTrackBuffer`: `none` is `NULL`. -/
def GetTrackBuffer {σ : Type} (st : PlayerState σ) : Option AudioBuffer :=
  if st.currentAudio then some st.localAudioBuffer else none

/-! ## ui.c: the SAVE CLIP step of `DrawUI` -/

/-- Whether a value fits a `long long`. -/
def fitsInt64 (i : Int) : Bool := decide (-(2 : Int) ^ 63 ≤ i) && decide (i < 2 ^ 63)

/-- The block `AudioBuffer *ab = GetTrackBuffer(); if (ab) { .. }` of the SAVE CLIP
button in `DrawUI`, for the float selection `(selectionStart, selectionEnd)`; in
`selectionStart * ab->sampleRate` the `int` is converted to `float` and the product is a
float product.  The result
lists the floats handed to `fwrite` (none when `fwrite` is not called); it is `none`
when a conversion to `long long` or the subtraction is out of range, or when the
floats are not all inside a live block.  `framesToWrite > 0` puts `startSamp` below
`2^32`, so `startSamp * ab->channels` cannot overflow. -/
def saveClip {σ : Type} (selectionStart selectionEnd : ℚ) (st : PlayerState σ) :
    Option (List Sample) :=
  match GetTrackBuffer st with
  | none => some []
  | some ab =>
    let start0 := truncToZero (fmul selectionStart (roundF32 (ab.sampleRate : ℚ)))
    let end0 := truncToZero (fmul selectionEnd (roundF32 (ab.sampleRate : ℚ)))
    if !fitsInt64 start0 || !fitsInt64 end0 then none
    else
      let startSamp : Int := if start0 < 0 then 0 else start0
      let endSamp : Int := if end0 > (ab.frameCount : Int) then (ab.frameCount : Int) else end0
      let framesToWrite : Int := endSamp - startSamp
      if !fitsInt64 framesToWrite then none
      else if framesToWrite > 0 then
        if ab.channels < 0 then none
        else
          readSamples ab.samples (startSamp * ab.channels).toNat
            (framesToWrite * ab.channels).toNat
      else some []

/-! ## Concrete instances used to evaluate the definitions -/

/-- A pass-through engine at speed 1: a queue of frames.  Writing appends the frames
given, reading takes from the front, changing the rate empties the queue. -/
def fifoApi : SonicApi (List (Sample × Sample)) where
  createStream := fun _ _ => some []
  setSpeed := fun q _ => q
  setSampleRate := fun _ _ => []
  samplesAvailable := fun q => (q.length : Int)
  writeFloatToStream := fun q samples _ =>
    q ++ (List.range (samples.length / 2)).map (fun i => (samples.getD (2 * i) 0, samples.getD (2 * i + 1) 0))
  readFloatFromStream := fun q maxFrames => (q.take maxFrames.toNat, q.drop maxFrames.toNat)

/-- A decoder run in which everything succeeds and `fread` returns `chunks`. -/
def goodRun (chunks : List (List Sample)) : DecoderRun :=
  { fileNameLen := 8, popenOk := true, mallocOk := true, reallocOk := fun _ => true
    chunks := chunks, exitCode := 0 }

/-- A decoder run for a path the decoder cannot open: the pipe delivers nothing and
the decoder exits with status 1. -/
def missingFileRun : DecoderRun :=
  { fileNameLen := 8, popenOk := true, mallocOk := true, reallocOk := fun _ => true
    chunks := [], exitCode := 1 }

/-- An initialised player holding a two-frame track (floats 11 12 13 14), stopped at
frame 0, with an empty engine. -/
def loadedState : PlayerState (List (Sample × Sample)) :=
  { timeStretcher := Ptr.live []
    currentAudio := true
    localAudioBuffer :=
      { samples := Ptr.live [11, 12, 13, 14], sampleCount := 4, frameCount := 2
        sampleRate := 44100, channels := 2 }
    currentFrameIndex := 0
    isPlaying := false
    currentSpeed := 1
    isSystemInitialized := true }

/-- The state `loadedState` playing with the cursor at the end of the track. -/
def endOfTrackState : PlayerState (List (Sample × Sample)) :=
  { loadedState with currentFrameIndex := 2, isPlaying := true }

/-- An output block whose floats all hold the pattern 7 before the callback runs. -/
def staleOutput : Nat → Sample := fun _ => 7

/-- The spec's `clamp(x, lo, hi)`. -/
def clamp {α : Type} [LinearOrder α] (x lo hi : α) : α := max lo (min x hi)

/-- The cursor the spec gives for `seek(t)`: `clamp(round(t * sampleRate), 0, frameCount)`. -/
def specSeekFrame (t : ℚ) (frameCount : Nat) : Int :=
  clamp (round (t * 44100)) 0 (frameCount : Int)

/-- The engine handle after the `if (timeStretcher) sonicSetSampleRate(..)` of `LoadTrack`. -/
def resetHandle {σ : Type} (api : SonicApi σ) : Ptr σ → Ptr σ
  | Ptr.live e => Ptr.live (api.setSampleRate e 44100)
  | p => p

/-- A decoder run delivering `2^32` floats, in `2^20` reads of 4096 floats each. -/
def hugeRun : DecoderRun := goodRun (List.replicate (2 ^ 20) (List.replicate 4096 0))

/-- The test at the top of `AudioInputCallback` that selects the silent branch. -/
def PlayerState.silent {σ : Type} (st : PlayerState σ) : Bool :=
  !st.isPlaying || !st.currentAudio || !st.localAudioBuffer.samples.nonNull

/-- An output block defined over its first `frames` frames: the floats of `written`
first, zeros up to `frames * 2`, and beyond that the floats `output` held before. -/
def definedOutput (output : Nat → Sample) (frames : Nat) (written : List Sample) :
    Nat → Sample :=
  fun i => if i < frames * 2 then written.getD i 0 else output i

/-- The state `loadedState` playing from frame 0. -/
def playingState : PlayerState (List (Sample × Sample)) :=
  { loadedState with isPlaying := true }

/-- The controller operations a client or the audio device may invoke on an
initialised player. -/
inductive Op where
  | load (run : DecoderRun)
  | play
  | pause
  | stop
  | seek (time : ℚ)
  | setSpeed (speed : ℚ)
  | callback (output : Nat → Sample) (frames : Nat)

/-- The state after one operation. -/
def Op.apply {σ : Type} (api : SonicApi σ) : Op → PlayerState σ → Option (PlayerState σ)
  | Op.load run, st => (LoadTrack api run st).map Prod.snd
  | Op.play, st => some (PlayTrack st)
  | Op.pause, st => some (PauseTrack st)
  | Op.stop, st => StopTrack api st
  | Op.seek time, st => SeekTrack api time st
  | Op.setSpeed speed, st => SetTrackSpeed api speed st
  | Op.callback output frames, st => (AudioInputCallback api output frames st).map Prod.snd

/-- The state after a sequence of operations, first to last. -/
def runOps {σ : Type} (api : SonicApi σ) : List Op → PlayerState σ → Option (PlayerState σ)
  | [], st => some st
  | op :: rest, st => (op.apply api st).bind (runOps api rest)

/-- The arguments of an operation are in the range the player's `int` arithmetic
covers: a decoded track has fewer than `2^31` frames, a seek time has a frame number
that fits an `int`, the device asks for fewer than `2^30` frames. -/
def Op.inRange : Op → Prop
  | Op.load run => (LoadAudioDataFFmpeg run).frameCount < 2 ^ 31
  | Op.seek time => fitsInt32 (truncToZero (fmul time 44100)) = true
  | Op.callback _ frames => frames < 2 ^ 30
  | _ => True

/-- The spec's cursor invariant, `0 <= cursorFrame <= frameCount`. -/
def cursorInRange {σ : Type} (st : PlayerState σ) : Prop :=
  st.currentFrameIndex ≤ st.localAudioBuffer.frameCount

/-- An initialised player in working order: the engine is live, the buffer slot is
empty or holds a live block of at least `frameCount` frames, with fewer than `2^31`
frames, and while the slot holds a block the cursor is within `[0, frameCount]`. -/
def PlayerState.sound {σ : Type} (st : PlayerState σ) : Prop :=
  (∃ e, st.timeStretcher = Ptr.live e) ∧
  st.localAudioBuffer.samples ≠ Ptr.dangling ∧
  st.localAudioBuffer.frameCount < 2 ^ 31 ∧
  (∀ data, st.localAudioBuffer.samples = Ptr.live data →
    st.localAudioBuffer.frameCount * 2 ≤ data.length ∧ cursorInRange st)

/-- The player right after `InitAudioPlayerSystem` with the engine `fifoApi`. -/
def idleState : PlayerState (List (Sample × Sample)) :=
  { PlayerState.initial (List (Sample × Sample)) with
    timeStretcher := Ptr.live [], isSystemInitialized := true }

/-- A session touching every operation: load the two-frame track, play, one callback,
seek to 1 s, set the speed, pause, stop, then load a missing file. -/
def sessionOps : List Op :=
  [Op.load (goodRun [[11, 12, 13, 14]]), Op.play, Op.callback staleOutput 1, Op.seek 1,
    Op.setSpeed 2, Op.pause, Op.stop, Op.load missingFileRun]

/-- A buffer with samples is present: the test of `PlayTrack`. -/
def PlayerState.hasSamples {σ : Type} (st : PlayerState σ) : Bool :=
  st.currentAudio && st.localAudioBuffer.samples.nonNull

/-- An initialised player holding a 10-second stereo track (441000 frames of zeros). -/
def tenSecondState : PlayerState (List (Sample × Sample)) :=
  { loadedState with
    localAudioBuffer :=
      { samples := Ptr.live (List.replicate 882000 0), sampleCount := 882000
        frameCount := 441000, sampleRate := 44100, channels := 2 } }

/-- The writes `ws` of a feed loop that starts with the cursor at `cursor` and ends
with it at `final`, on a track of `frameCount` frames: each write starts at the frame
the cursor has reached, has between 1 and 1024 frames, ends at or before `frameCount`,
and moves the cursor forward by its length. -/
def feedChain (frameCount : Nat) : Nat → List (Nat × Nat) → Nat → Prop
  | cursor, [], final => final = cursor
  | cursor, w :: rest, final =>
    w.1 = cursor ∧ 1 ≤ w.2 ∧ w.2 ≤ 1024 ∧ w.1 + w.2 ≤ frameCount ∧
      feedChain frameCount (w.1 + w.2) rest final

/-- The capacity in force at the `memcpy` of a loop iteration that starts in state
`st` and has read `samplesRead` floats: doubled once when
`count + samplesRead > capacity`, unchanged otherwise. -/
def capacityAtCopy (st : ReadState) (samplesRead : Nat) : Nat :=
  if st.count + samplesRead > st.capacity then st.capacity * 2 else st.capacity

/-- The frame range the spec gives for an export of `(startTime, endTime)`: each end is
`trunc(time * sampleRate)`, the product taken exactly, clamped to `[0, frameCount]`. -/
def clipFrames (startTime endTime : ℚ) (ab : AudioBuffer) : Nat × Nat :=
  ((clamp (truncToZero (startTime * ab.sampleRate)) 0 (ab.frameCount : Int)).toNat,
   (clamp (truncToZero (endTime * ab.sampleRate)) 0 (ab.frameCount : Int)).toNat)

/-- The frame range of an export with the products the program computes: each end is the
truncated float product of the time and the float sample rate, clamped to
`[0, frameCount]`. -/
def clipFramesF32 (startTime endTime : ℚ) (ab : AudioBuffer) : Nat × Nat :=
  ((clamp (truncToZero (fmul startTime (roundF32 (ab.sampleRate : ℚ)))) 0
      (ab.frameCount : Int)).toNat,
   (clamp (truncToZero (fmul endTime (roundF32 (ab.sampleRate : ℚ)))) 0
      (ab.frameCount : Int)).toNat)

/-- The floats of the frames `[startFrame, endFrame)` of a block with `channels` floats
per frame; none when the range is empty or inverted. -/
def frameSlice (data : List Sample) (channels : Nat) (range : Nat × Nat) : List Sample :=
  (data.drop (range.1 * channels)).take ((range.2 - range.1) * channels)

/-- The engine state `e` is drained with respect to a read of `maxFrames`: nothing is
available, the read returns no frame, and nothing is available after it. -/
def SonicApi.drained {σ : Type} (api : SonicApi σ) (e : σ) (maxFrames : Int) : Prop :=
  api.samplesAvailable e = 0 ∧ (api.readFloatFromStream e maxFrames).1 = [] ∧
    api.samplesAvailable (api.readFloatFromStream e maxFrames).2 = 0

/-- The engine keeps account of its frames like a queue: it never reports a negative
count, a read of up to `maxFrames >= 0` returns the frames available, at most
`maxFrames` of them, and that many fewer are available afterwards. -/
def SonicApi.readTakes {σ : Type} (api : SonicApi σ) : Prop :=
  ∀ (e : σ) (maxFrames : Int), 0 ≤ maxFrames →
    0 ≤ api.samplesAvailable e ∧
    ((api.readFloatFromStream e maxFrames).1.length : Int) =
      min (api.samplesAvailable e) maxFrames ∧
    api.samplesAvailable (api.readFloatFromStream e maxFrames).2 =
      api.samplesAvailable e - min (api.samplesAvailable e) maxFrames

/-- The writes of the feed loop that `AudioInputCallback` runs in state `st` when asked
for `frames` frames, each as (cursor at the write, `chunkFrames`); none in the silent
branch. -/
def feedWrites {σ : Type} (api : SonicApi σ) (frames : Nat) (st : PlayerState σ) :
    List (Nat × Nat) :=
  if st.silent then []
  else
    match st.timeStretcher with
    | Ptr.live e =>
      match feedLoop api st.localAudioBuffer.samples st.localAudioBuffer.frameCount
          (toInt32 frames) (st.localAudioBuffer.frameCount - st.currentFrameIndex) e
          st.currentFrameIndex with
      | some fed => fed.writes
      | none => []
    | _ => []

/-- The player after `InitAudioPlayerSystem` and `CloseAudioPlayerSystem` with no
track loaded in between: the engine handle still points at the destroyed engine. -/
def closedState : PlayerState (List (Sample × Sample)) :=
  { idleState with timeStretcher := Ptr.dangling, isSystemInitialized := false }

/-- A decoder run delivering a seven-frame track in one chunk. -/
def sevenFrameRun : DecoderRun :=
  goodRun [[1, 2, 3, 4, 5, 6, 7, 8, 9, 10, 11, 12, 13, 14]]

/-! ## Binary32 rounding -/

theorem roundHalfEven_eval (q : ℚ) (n : Int) (h1 : (n : ℚ) - 1 / 2 < q)
    (h2 : q < n + 1 / 2) : roundHalfEven q = n := by
  unfold roundHalfEven
  by_cases hq : (n : ℚ) ≤ q
  · have hf : ⌊q⌋ = n := by
      rw [Int.floor_eq_iff]
      exact ⟨hq, by linarith⟩
    rw [hf, if_pos (by linarith)]
  · have hf : ⌊q⌋ = n - 1 := by
      rw [Int.floor_eq_iff]
      push_cast
      push_neg at hq
      exact ⟨by linarith, by linarith⟩
    rw [hf]
    have h3 : ¬ (q - ((n - 1 : Int) : ℚ) < 1 / 2) := by push_cast; linarith
    have h4 : q - ((n - 1 : Int) : ℚ) > 1 / 2 := by push_cast; linarith
    rw [if_neg h3, if_pos h4]
    ring

/-- The value of `roundF32` at a nonzero `x` in the normal range, given its binade
`2^e <= |x| < 2^(e+1)` and the integer `n` within one half of `x / 2^(e-23)`. -/
theorem roundF32_eval (x : ℚ) (e n : Int) (hx : x ≠ 0) (he : -126 ≤ e)
    (hlo : (2 : ℚ) ^ e ≤ |x|) (hhi : |x| < (2 : ℚ) ^ (e + 1))
    (h1 : (n : ℚ) - 1 / 2 < x / (2 : ℚ) ^ (e - 23))
    (h2 : x / (2 : ℚ) ^ (e - 23) < n + 1 / 2) :
    roundF32 x = n * (2 : ℚ) ^ (e - 23) := by
  have hpos : 0 < |x| := abs_pos.mpr hx
  have hlog : Int.log 2 |x| = e := by
    apply le_antisymm
    · have h := (Int.lt_zpow_iff_log_lt (b := 2) (by norm_num) hpos (x := e + 1)).mp
        (by exact_mod_cast hhi)
      omega
    · exact (Int.zpow_le_iff_le_log (b := 2) (by norm_num) hpos).mp (by exact_mod_cast hlo)
  unfold roundF32
  rw [if_neg hx]
  simp only [hlog, max_eq_left he]
  rw [roundHalfEven_eval _ n h1 h2]

theorem roundF32_zero : roundF32 0 = 0 := by
  simp [roundF32]

theorem fmul_zero_left (b : ℚ) : fmul 0 b = 0 := by
  simp [fmul, roundF32]

theorem fdiv_zero_left (b : ℚ) : fdiv 0 b = 0 := by
  simp [fdiv, roundF32]

theorem truncToZero_zero : truncToZero 0 = 0 := by
  simp [truncToZero]

theorem truncToZero_intCast (n : Int) : truncToZero (n : ℚ) = n := by
  simp [truncToZero]

/-- The float product `0 * 44100` is 0. -/
theorem truncToZero_fmul_zero : truncToZero (fmul 0 44100) = 0 := by
  rw [fmul_zero_left, truncToZero_zero]

/-- The float product `2^-16 * 44100` is exact: 11025 / 16384, which truncates to 0. -/
theorem fmul_example : fmul (1 / 65536) 44100 = 11025 / 16384 := by
  unfold fmul
  rw [roundF32_eval ((1 / 65536 : ℚ) * 44100) (-1) 11289600 (by norm_num) (by norm_num)
    (by norm_num [abs_of_pos]) (by norm_num [abs_of_pos]) (by norm_num) (by norm_num)]
  norm_num

/-- The float product `1 * 44100` is 44100. -/
theorem fmul_one_second : fmul 1 44100 = 44100 := by
  unfold fmul
  rw [roundF32_eval ((1 : ℚ) * 44100) 15 11289600 (by norm_num) (by norm_num)
    (by norm_num [abs_of_pos]) (by norm_num [abs_of_pos]) (by norm_num) (by norm_num)]
  norm_num

/-- The float product `5 * 44100` is 220500. -/
theorem fmul_five_seconds : fmul 5 44100 = 220500 := by
  unfold fmul
  rw [roundF32_eval ((5 : ℚ) * 44100) 17 14112000 (by norm_num) (by norm_num)
    (by norm_num [abs_of_pos]) (by norm_num [abs_of_pos]) (by norm_num) (by norm_num)]
  norm_num

/-- The float quotient `220500 / 44100`, of the float 220500, is 5. -/
theorem fdiv_five_seconds : fdiv (roundF32 220500) 44100 = 5 := by
  have h1 : roundF32 220500 = 220500 := by
    rw [roundF32_eval 220500 17 14112000 (by norm_num) (by norm_num)
      (by norm_num [abs_of_pos]) (by norm_num [abs_of_pos]) (by norm_num) (by norm_num)]
    norm_num
  unfold fdiv
  rw [h1, roundF32_eval ((220500 : ℚ) / 44100) 2 10485760 (by norm_num) (by norm_num)
    (by norm_num [abs_of_pos]) (by norm_num [abs_of_pos]) (by norm_num) (by norm_num)]
  norm_num

/-- The float quotient `441000 / 44100`, of the float 441000, is 10. -/
theorem fdiv_ten_seconds : fdiv (roundF32 441000) 44100 = 10 := by
  have h1 : roundF32 441000 = 441000 := by
    rw [roundF32_eval 441000 18 14112000 (by norm_num) (by norm_num)
      (by norm_num [abs_of_pos]) (by norm_num [abs_of_pos]) (by norm_num) (by norm_num)]
    norm_num
  unfold fdiv
  rw [h1, roundF32_eval ((441000 : ℚ) / 44100) 3 10485760 (by norm_num) (by norm_num)
    (by norm_num [abs_of_pos]) (by norm_num [abs_of_pos]) (by norm_num) (by norm_num)]
  norm_num

/-- The float quotient `2 / 44100` is 6233059 / 2^37, not the rational 1 / 22050. -/
theorem fdiv_two_frames : fdiv (roundF32 2) 44100 = 6233059 / 2 ^ 37 := by
  have h1 : roundF32 2 = 2 := by
    rw [roundF32_eval 2 1 8388608 (by norm_num) (by norm_num)
      (by norm_num [abs_of_pos]) (by norm_num [abs_of_pos]) (by norm_num) (by norm_num)]
    norm_num
  unfold fdiv
  rw [h1, roundF32_eval ((2 : ℚ) / 44100) (-15) 12466118 (by norm_num) (by norm_num)
    (by norm_num [abs_of_pos]) (by norm_num [abs_of_pos]) (by norm_num) (by norm_num)]
  norm_num

/-- The float product of the duration of a two-frame track and 44100 rounds to 2. -/
theorem fmul_two_frames : fmul (6233059 / 2 ^ 37) 44100 = 2 := by
  unfold fmul
  rw [roundF32_eval ((6233059 / 2 ^ 37 : ℚ) * 44100) 0 16777216 (by norm_num) (by norm_num)
    (by norm_num [abs_of_pos]) (by norm_num [abs_of_pos]) (by norm_num) (by norm_num)]
  norm_num

/-- The float quotient `7 / 44100`, the duration of a seven-frame track. -/
theorem fdiv_seven_frames : fdiv (roundF32 7) 44100 = 10907853 / 2 ^ 36 := by
  have h1 : roundF32 7 = 7 := by
    rw [roundF32_eval 7 2 14680064 (by norm_num) (by norm_num)
      (by norm_num [abs_of_pos]) (by norm_num [abs_of_pos]) (by norm_num) (by norm_num)]
    norm_num
  unfold fdiv
  rw [h1, roundF32_eval ((7 : ℚ) / 44100) (-13) 10907853 (by norm_num) (by norm_num)
    (by norm_num [abs_of_pos]) (by norm_num [abs_of_pos]) (by norm_num) (by norm_num)]
  norm_num

/-- The float product of the duration of a seven-frame track and 44100 is the float
just below 7. -/
theorem fmul_seven_frames : fmul (10907853 / 2 ^ 36) 44100 = 14680063 / 2 ^ 21 := by
  unfold fmul
  rw [roundF32_eval ((10907853 / 2 ^ 36 : ℚ) * 44100) 2 14680063 (by norm_num) (by norm_num)
    (by norm_num [abs_of_pos]) (by norm_num [abs_of_pos]) (by norm_num) (by norm_num)]
  norm_num

/-- The frame number `SeekTrack` computes for the duration of a seven-frame track is 6. -/
theorem truncToZero_seven_frames :
    truncToZero (fmul (fdiv (roundF32 7) 44100) 44100) = 6 := by
  rw [fdiv_seven_frames, fmul_seven_frames]
  norm_num [truncToZero]
  rfl

/-- The float product of `0.7f = 11744051 / 2^24` and 44100 rounds up to 30870, although
the exact product is below 30870. -/
theorem fmul_seven_tenths : fmul (11744051 / 2 ^ 24) 44100 = 30870 := by
  unfold fmul
  rw [roundF32_eval ((11744051 / 2 ^ 24 : ℚ) * 44100) 14 15805440 (by norm_num) (by norm_num)
    (by norm_num [abs_of_pos]) (by norm_num [abs_of_pos]) (by norm_num) (by norm_num)]
  norm_num

/-! ## The loader -/

theorem readLoop_data (ok : Nat → Bool) (chunks : List (List Sample)) (st st1 : ReadState)
    (h : readLoop ok chunks st = some st1) :
    st1.data = st.data ++ decodedStream chunks ∧
      st1.count = st.count + (decodedStream chunks).length := by
  induction chunks generalizing st with
  | nil => simp [readLoop] at h; subst h; simp [decodedStream]
  | cons chunk rest ih =>
    by_cases hc : chunk.length = 0
    · simp [readLoop, hc] at h; subst h; simp [decodedStream, hc]
    · simp only [readLoop, hc, if_false] at h
      cases hs : readStep ok st chunk with
      | none => simp [hs] at h
      | some st2 =>
        simp only [hs] at h
        obtain ⟨h1, h2⟩ := ih st2 h
        have hd : st2.data = st.data ++ chunk ∧ st2.count = st.count + chunk.length := by
          unfold readStep at hs
          by_cases hg : st.count + chunk.length > st.capacity
          · by_cases hr : ok (st.capacity * 2 * 4) = true
            · simp [hg, hr] at hs; subst hs; simp
            · simp [hg, hr] at hs
          · simp [hg] at hs; subst hs; simp
        simp only [decodedStream, hc, if_false, List.length_append]
        rw [h1, h2, hd.1, hd.2]
        constructor
        · simp
        · omega

theorem readLoop_allocsOk (ok : Nat → Bool) (hok : ∀ bytes, ok bytes = true)
    (chunks : List (List Sample)) (st : ReadState) :
    ∃ st1, readLoop ok chunks st = some st1 := by
  induction chunks generalizing st with
  | nil => exact ⟨st, by simp [readLoop]⟩
  | cons chunk rest ih =>
    by_cases hc : chunk.length = 0
    · exact ⟨st, by simp [readLoop, hc]⟩
    · have hs : ∃ st2, readStep ok st chunk = some st2 := by
        unfold readStep
        split
        · simp [hok]
        · simp
      obtain ⟨st2, hs⟩ := hs
      obtain ⟨st1, h1⟩ := ih st2
      exact ⟨st1, by simp [readLoop, hc, hs, h1]⟩

/-- With the pipe open and every allocation succeeding, the buffer returned is decided
by the floats the pipe delivered alone. -/
theorem LoadAudioDataFFmpeg_eq (run : DecoderRun) (hp : run.pipeOpened) (ha : run.allocsOk) :
    LoadAudioDataFFmpeg run =
      if (decodedStream run.chunks).length = 0 then AudioBuffer.zero
      else
        { samples := Ptr.live (decodedStream run.chunks)
          channels := 2
          sampleRate := 44100
          sampleCount := toUInt32 (decodedStream run.chunks).length
          frameCount := toUInt32 ((decodedStream run.chunks).length / 2) } := by
  obtain ⟨st1, h1⟩ := readLoop_allocsOk run.reallocOk ha.2 run.chunks ReadState.init
  obtain ⟨hd, hc⟩ := readLoop_data _ _ _ _ h1
  have hlen : ¬ run.fileNameLen > 1024 := by have := hp.1; omega
  simp only [LoadAudioDataFFmpeg, hlen, if_false, hp.2, ha.1, Bool.not_true, h1]
  simp only [ReadState.init, List.nil_append, Nat.zero_add] at hd hc
  rw [hc, hd]
  simp

/-- The loader returns either the zeroed struct or a buffer with live samples. -/
theorem LoadAudioDataFFmpeg_cases (run : DecoderRun) :
    LoadAudioDataFFmpeg run = AudioBuffer.zero ∨
      ∃ data, (LoadAudioDataFFmpeg run).samples = Ptr.live data := by
  unfold LoadAudioDataFFmpeg
  split
  · exact Or.inl rfl
  · split
    · exact Or.inl rfl
    · split
      · exact Or.inl rfl
      · split
        · exact Or.inl rfl
        · split
          · exact Or.inl rfl
          · exact Or.inr ⟨_, rfl⟩

/-- Every failure path of the loader returns the zeroed struct. -/
theorem LoadAudioDataFFmpeg_null (run : DecoderRun)
    (h : (LoadAudioDataFFmpeg run).samples.nonNull = false) :
    LoadAudioDataFFmpeg run = AudioBuffer.zero := by
  rcases LoadAudioDataFFmpeg_cases run with h0 | ⟨data, hd⟩
  · exact h0
  · rw [hd] at h; simp [Ptr.nonNull] at h

/-- Claim C7 at a stream of three floats: the loader stores `sampleCount = 3` and
`frameCount = 1`, so `sampleCount` differs from `frameCount * channels`. -/
theorem LoadAudioDataFFmpeg_odd_stream :
    (LoadAudioDataFFmpeg (goodRun [[11, 12, 13]])).samples = Ptr.live [11, 12, 13] ∧
    (LoadAudioDataFFmpeg (goodRun [[11, 12, 13]])).sampleCount = 3 ∧
    (LoadAudioDataFFmpeg (goodRun [[11, 12, 13]])).frameCount = 1 ∧
    (LoadAudioDataFFmpeg (goodRun [[11, 12, 13]])).channels = 2 ∧
    ((LoadAudioDataFFmpeg (goodRun [[11, 12, 13]])).sampleCount : Int) ≠
      (LoadAudioDataFFmpeg (goodRun [[11, 12, 13]])).frameCount *
        (LoadAudioDataFFmpeg (goodRun [[11, 12, 13]])).channels := by
  decide

/-- Claim C8: when the pipe opens and every allocation succeeds, the loader returns a
populated buffer (samples non-null, holding the floats delivered) exactly when the pipe
delivered at least one float, and the zeroed buffer otherwise; the decoder's exit status
never changes the buffer returned. -/
theorem LoadAudioDataFFmpeg_populated_iff (run : DecoderRun) (hp : run.pipeOpened)
    (ha : run.allocsOk) :
    ((LoadAudioDataFFmpeg run).samples.nonNull = true ↔ decodedStream run.chunks ≠ []) ∧
    (decodedStream run.chunks ≠ [] →
      (LoadAudioDataFFmpeg run).samples = Ptr.live (decodedStream run.chunks)) ∧
    (decodedStream run.chunks = [] → LoadAudioDataFFmpeg run = AudioBuffer.zero) ∧
    (∀ status : Int,
      LoadAudioDataFFmpeg { run with exitCode := status } = LoadAudioDataFFmpeg run) := by
  refine ⟨?_, ?_, ?_, fun _ => rfl⟩
  · rw [LoadAudioDataFFmpeg_eq run hp ha]
    by_cases h : decodedStream run.chunks = []
    · simp [h, AudioBuffer.zero, Ptr.nonNull]
    · simp [h, Ptr.nonNull]
  · intro h; rw [LoadAudioDataFFmpeg_eq run hp ha]; simp [h]
  · intro h; rw [LoadAudioDataFFmpeg_eq run hp ha]; simp [h]

theorem LoadAudioDataFFmpeg_populated_iff_witness :
    (goodRun [[11, 12], [13, 14]]).pipeOpened ∧ (goodRun [[11, 12], [13, 14]]).allocsOk ∧
    missingFileRun.pipeOpened ∧ missingFileRun.allocsOk ∧
    (LoadAudioDataFFmpeg (goodRun [[11, 12], [13, 14]])).samples.nonNull = true ∧
    (LoadAudioDataFFmpeg { goodRun [[11, 12], [13, 14]] with exitCode := 1 }).samples =
      Ptr.live [11, 12, 13, 14] ∧
    LoadAudioDataFFmpeg missingFileRun = AudioBuffer.zero := by
  have h1 := LoadAudioDataFFmpeg_populated_iff (goodRun [[11, 12], [13, 14]])
    ⟨by decide, rfl⟩ ⟨rfl, fun _ => rfl⟩
  have h2 := LoadAudioDataFFmpeg_populated_iff missingFileRun ⟨by decide, rfl⟩ ⟨rfl, fun _ => rfl⟩
  refine ⟨⟨by decide, rfl⟩, ⟨rfl, fun _ => rfl⟩, ⟨by decide, rfl⟩, ⟨rfl, fun _ => rfl⟩,
    h1.1.2 (by decide), ?_, h2.2.2.1 rfl⟩
  rw [h1.2.2.2 1]
  exact h1.2.1 (by decide)

/-! ## The player: single operations -/

theorem FreeAudioBuffer_isSome (buf : AudioBuffer) (h : buf.samples ≠ Ptr.dangling) :
    ∃ b, FreeAudioBuffer buf = some b := by
  unfold FreeAudioBuffer
  cases hs : buf.samples with
  | null => exact ⟨_, rfl⟩
  | live d => exact ⟨_, rfl⟩
  | dangling => exact absurd hs h

theorem LoadTrack_of_null {σ : Type} (api : SonicApi σ) (run : DecoderRun) (st : PlayerState σ)
    (hbuf : st.localAudioBuffer.samples ≠ Ptr.dangling)
    (hdec : (LoadAudioDataFFmpeg run).samples.nonNull = false) :
    LoadTrack api run st = some (false, { st with localAudioBuffer := AudioBuffer.zero }) := by
  obtain ⟨b, hb⟩ := FreeAudioBuffer_isSome _ hbuf
  have hz := LoadAudioDataFFmpeg_null run hdec
  simp [LoadTrack, hb, hz, AudioBuffer.zero, Ptr.nonNull]

theorem LoadTrack_of_nonNull {σ : Type} (api : SonicApi σ) (run : DecoderRun)
    (st : PlayerState σ) (hts : st.timeStretcher ≠ Ptr.dangling)
    (hbuf : st.localAudioBuffer.samples ≠ Ptr.dangling)
    (hdec : (LoadAudioDataFFmpeg run).samples.nonNull = true) :
    LoadTrack api run st =
      some (true, { st with timeStretcher := resetHandle api st.timeStretcher
                            localAudioBuffer := LoadAudioDataFFmpeg run
                            currentAudio := true
                            currentFrameIndex := 0
                            isPlaying := false }) := by
  obtain ⟨b, hb⟩ := FreeAudioBuffer_isSome _ hbuf
  simp only [LoadTrack, hb, hdec, Bool.not_true]
  cases hs : st.timeStretcher with
  | null => simp [resetHandle]
  | live e => simp [resetHandle]
  | dangling => exact absurd hs hts

/-- Claim C1, as amended: when the decode fails, `LoadTrack` returns false and keeps
the cursor, the playing flag, the speed and the engine, but the previously loaded
buffer is gone: the buffer slot is the zeroed struct, so the duration is 0 and the
buffer exposed, if any, is empty. -/
theorem LoadTrack_failure {σ : Type} (api : SonicApi σ) (run : DecoderRun) (st : PlayerState σ)
    (hbuf : st.localAudioBuffer.samples ≠ Ptr.dangling)
    (hdec : (LoadAudioDataFFmpeg run).samples.nonNull = false) :
    LoadTrack api run st = some (false, { st with localAudioBuffer := AudioBuffer.zero }) ∧
    GetTrackDuration { st with localAudioBuffer := AudioBuffer.zero } = 0 ∧
    GetTrackBuffer { st with localAudioBuffer := AudioBuffer.zero } =
      (if st.currentAudio then some AudioBuffer.zero else none) := by
  refine ⟨LoadTrack_of_null api run st hbuf hdec, ?_, rfl⟩
  simp [GetTrackDuration, AudioBuffer.zero, roundF32_zero, fdiv_zero_left]

theorem LoadTrack_failure_witness :
    loadedState.localAudioBuffer.samples ≠ Ptr.dangling ∧
    (LoadAudioDataFFmpeg missingFileRun).samples.nonNull = false ∧
    LoadTrack fifoApi missingFileRun loadedState =
      some (false, { loadedState with localAudioBuffer := AudioBuffer.zero }) :=
  ⟨by decide, by decide,
    (LoadTrack_failure fifoApi missingFileRun loadedState (by decide) (by decide)).1⟩

/-- Claim C1 fails as stated: with the two-frame track loaded, a load of a missing file
returns false and leaves duration 0 (it was the float `2 / 44100`) and an empty buffer
exposed. -/
theorem failed_load_drops_track :
    GetTrackDuration loadedState = 6233059 / 2 ^ 37 ∧
    GetTrackBuffer loadedState = some loadedState.localAudioBuffer ∧
    (LoadTrack fifoApi missingFileRun loadedState).map
        (fun r => (r.1, GetTrackDuration r.2, GetTrackBuffer r.2)) =
      some (false, 0, some AudioBuffer.zero) := by
  refine ⟨?_, rfl, ?_⟩
  · unfold GetTrackDuration
    simp only [loadedState, Bool.not_true, Bool.false_eq_true, if_false, Nat.cast_ofNat]
    exact fdiv_two_frames
  · rw [LoadTrack_of_null fifoApi missingFileRun loadedState (by decide) (by decide)]
    simp [GetTrackDuration, GetTrackBuffer, loadedState, AudioBuffer.zero, roundF32_zero,
      fdiv_zero_left]

/-- Claim C9: from any state whose handles are intact and for any decode that succeeds,
`LoadTrack` returns true; the new state has cursor 0, is not playing, holds exactly the
decoded buffer, has the engine (when there is one) reset by the rate change, and keeps
the speed and everything else. -/
theorem LoadTrack_success {σ : Type} (api : SonicApi σ) (run : DecoderRun) (st : PlayerState σ)
    (hts : st.timeStretcher ≠ Ptr.dangling)
    (hbuf : st.localAudioBuffer.samples ≠ Ptr.dangling)
    (hdec : (LoadAudioDataFFmpeg run).samples.nonNull = true) :
    ∃ st1, LoadTrack api run st = some (true, st1) ∧
      st1.currentFrameIndex = 0 ∧ st1.isPlaying = false ∧
      st1.currentAudio = true ∧ GetTrackBuffer st1 = some (LoadAudioDataFFmpeg run) ∧
      (∀ e, st.timeStretcher = Ptr.live e →
        st1.timeStretcher = Ptr.live (api.setSampleRate e 44100)) ∧
      (st.timeStretcher = Ptr.null → st1.timeStretcher = Ptr.null) ∧
      GetTrackSpeed st1 = GetTrackSpeed st ∧
      st1.isSystemInitialized = st.isSystemInitialized := by
  refine ⟨_, LoadTrack_of_nonNull api run st hts hbuf hdec, rfl, rfl, rfl, rfl, ?_, ?_, rfl, rfl⟩
  · intro e he; simp [he, resetHandle]
  · intro he; simp [he, resetHandle]

theorem LoadTrack_success_witness :
    endOfTrackState.timeStretcher ≠ Ptr.dangling ∧
    endOfTrackState.localAudioBuffer.samples ≠ Ptr.dangling ∧
    (LoadAudioDataFFmpeg (goodRun [[21, 22]])).samples.nonNull = true ∧
    ∃ st1, LoadTrack fifoApi (goodRun [[21, 22]]) endOfTrackState = some (true, st1) ∧
      st1.currentFrameIndex = 0 ∧ st1.isPlaying = false ∧
      st1.currentAudio = true ∧
      GetTrackBuffer st1 = some (LoadAudioDataFFmpeg (goodRun [[21, 22]])) ∧
      (∀ e, endOfTrackState.timeStretcher = Ptr.live e →
        st1.timeStretcher = Ptr.live (fifoApi.setSampleRate e 44100)) ∧
      (endOfTrackState.timeStretcher = Ptr.null → st1.timeStretcher = Ptr.null) ∧
      GetTrackSpeed st1 = GetTrackSpeed endOfTrackState ∧
      st1.isSystemInitialized = endOfTrackState.isSystemInitialized :=
  ⟨by decide, by decide, by decide,
    LoadTrack_success fifoApi (goodRun [[21, 22]]) endOfTrackState (by decide) (by decide)
      (by decide)⟩

/-- Claim C5: for every requested speed, `SetTrackSpeed` stores `clamp(s, 0.5, 3.0)`,
which is what `GetTrackSpeed` then returns, and forwards that same value to the engine
when there is one. -/
theorem SetTrackSpeed_clamps {σ : Type} (api : SonicApi σ) (s : ℚ) (st : PlayerState σ)
    (hts : st.timeStretcher ≠ Ptr.dangling) :
    ∃ st1, SetTrackSpeed api s st = some st1 ∧
      GetTrackSpeed st1 = clamp s (1 / 2) 3 ∧
      (∀ e, st.timeStretcher = Ptr.live e →
        st1.timeStretcher = Ptr.live (api.setSpeed e (clamp s (1 / 2) 3))) ∧
      (st.timeStretcher = Ptr.null → st1.timeStretcher = Ptr.null) := by
  have hclamp : (if (if s < 1 / 2 then (1 / 2 : ℚ) else s) > 3 then (3 : ℚ)
      else (if s < 1 / 2 then (1 / 2 : ℚ) else s)) = clamp s (1 / 2) 3 := by
    unfold clamp
    by_cases h1 : s < 1 / 2
    · have h3 : ¬ ((1 / 2 : ℚ) > 3) := by norm_num
      have h4 : min s 3 = s := min_eq_left (by linarith)
      rw [if_pos h1, if_neg h3, h4, max_eq_left (le_of_lt h1)]
    · rw [if_neg h1]
      by_cases h2 : s > 3
      · rw [if_pos h2, min_eq_right (le_of_lt h2)]
        exact (max_eq_right (by norm_num)).symm
      · rw [if_neg h2, min_eq_left (not_lt.mp h2), max_eq_right (not_lt.mp h1)]
  unfold SetTrackSpeed
  simp only [hclamp]
  cases hs : st.timeStretcher with
  | null =>
    refine ⟨_, rfl, rfl, ?_, ?_⟩
    · intro e he; cases he
    · intro _; rfl
  | live e0 =>
    refine ⟨_, rfl, rfl, ?_, ?_⟩
    · intro e he; cases he; rfl
    · intro he; cases he
  | dangling => exact absurd hs hts

theorem SetTrackSpeed_clamps_witness :
    loadedState.timeStretcher ≠ Ptr.dangling ∧
    ∃ st1, SetTrackSpeed fifoApi 5 loadedState = some st1 ∧
      GetTrackSpeed st1 = clamp 5 (1 / 2) 3 ∧
      (∀ e, loadedState.timeStretcher = Ptr.live e →
        st1.timeStretcher = Ptr.live (fifoApi.setSpeed e (clamp 5 (1 / 2) 3))) ∧
      (loadedState.timeStretcher = Ptr.null → st1.timeStretcher = Ptr.null) :=
  ⟨by decide, SetTrackSpeed_clamps fifoApi 5 loadedState (by decide)⟩

/-! ## Seeking and stopping -/

theorem toInt32_of_fits (n : Int) (h0 : -(2 : Int) ^ 31 ≤ n) (h1 : n < 2 ^ 31) :
    toInt32 n = n := by
  unfold toInt32; omega

theorem toSizeT_of_nonneg (i : Int) (h0 : 0 ≤ i) (h1 : i < 2 ^ 64) : toSizeT i = i.toNat := by
  unfold toSizeT; congr 1; omega

theorem fitsInt32_iff (i : Int) : fitsInt32 i = true ↔ -(2 : Int) ^ 31 ≤ i ∧ i < 2 ^ 31 := by
  simp [fitsInt32]

/-- The two `if`s of `SeekTrack` followed by the store into the `size_t` cursor. -/
theorem seek_clamp (f : Int) (fc : Nat) (hfc : fc < 2 ^ 31) :
    toSizeT (if (if f < 0 then 0 else f) > (fc : Int) then (fc : Int)
      else if f < 0 then 0 else f) = (clamp f 0 (fc : Int)).toNat := by
  have key : (if (if f < 0 then 0 else f) > (fc : Int) then (fc : Int)
      else if f < 0 then 0 else f) = clamp f 0 (fc : Int) := by
    unfold clamp
    by_cases h1 : f < 0
    · have : ¬ ((0 : Int) > fc) := by omega
      rw [if_pos h1, if_neg this, min_eq_left (by omega), max_eq_left (by omega)]
    · rw [if_neg h1]
      by_cases h2 : f > (fc : Int)
      · rw [if_pos h2, min_eq_right (by omega), max_eq_right (by omega)]
      · rw [if_neg h2, min_eq_left (by omega), max_eq_right (by omega)]
  rw [key]
  have hc0 : 0 ≤ clamp f 0 (fc : Int) := le_max_left _ _
  have hc1 : clamp f 0 (fc : Int) ≤ fc := max_le (by omega) (min_le_right _ _)
  exact toSizeT_of_nonneg _ hc0 (by omega)

/-- With a live engine, a track of fewer than `2^31` frames and a time whose frame
number fits an `int`, `SeekTrack` resets the engine and moves the cursor to the
truncated frame number clamped into `[0, frameCount]`; nothing else changes. -/
theorem SeekTrack_eq {σ : Type} (api : SonicApi σ) (t : ℚ) (st : PlayerState σ) (e : σ)
    (hca : st.currentAudio = true) (hts : st.timeStretcher = Ptr.live e)
    (hfc : st.localAudioBuffer.frameCount < 2 ^ 31)
    (hfit : fitsInt32 (truncToZero (fmul t 44100)) = true) :
    SeekTrack api t st =
      some { st with
        timeStretcher := Ptr.live (api.setSampleRate e 44100)
        currentFrameIndex :=
          (clamp (truncToZero (fmul t 44100)) 0 (st.localAudioBuffer.frameCount : Int)).toNat } := by
  have hfcI : toInt32 (st.localAudioBuffer.frameCount : Int) = st.localAudioBuffer.frameCount :=
    toInt32_of_fits _ (by omega) (by omega)
  simp only [SeekTrack, hca, hfit, hts, hfcI, Bool.not_true, Bool.false_eq_true, if_false]
  rw [seek_clamp _ _ hfc]

/-- Claim C4, as amended: for a loaded track of fewer than `2^31` frames, a live engine
and a time whose frame number fits an `int`, the cursor after `SeekTrack(t)` is
`clamp(trunc(fl(t * 44100)), 0, frameCount)`, where `fl` is the rounding of the product
to binary32: the float product is truncated toward zero, not rounded to the nearest
frame. -/
theorem SeekTrack_truncates {σ : Type} (api : SonicApi σ) (t : ℚ) (st : PlayerState σ) (e : σ)
    (hca : st.currentAudio = true) (hts : st.timeStretcher = Ptr.live e)
    (hfc : st.localAudioBuffer.frameCount < 2 ^ 31)
    (hfit : fitsInt32 (truncToZero (fmul t 44100)) = true) :
    ∃ st1, SeekTrack api t st = some st1 ∧
      (st1.currentFrameIndex : Int) =
        clamp (truncToZero (fmul t 44100)) 0 (st.localAudioBuffer.frameCount : Int) ∧
      st1.isPlaying = st.isPlaying ∧ st1.localAudioBuffer = st.localAudioBuffer := by
  refine ⟨_, SeekTrack_eq api t st e hca hts hfc hfit, ?_, rfl, rfl⟩
  exact Int.toNat_of_nonneg (le_max_left _ _)

theorem truncToZero_example : truncToZero (fmul (1 / 65536) 44100) = 0 := by
  rw [fmul_example]
  norm_num [truncToZero]
  rfl

theorem SeekTrack_truncates_witness :
    loadedState.currentAudio = true ∧ loadedState.timeStretcher = Ptr.live [] ∧
    loadedState.localAudioBuffer.frameCount < 2 ^ 31 ∧
    fitsInt32 (truncToZero (fmul (1 / 65536) 44100)) = true ∧
    ∃ st1, SeekTrack fifoApi (1 / 65536) loadedState = some st1 ∧
      (st1.currentFrameIndex : Int) =
        clamp (truncToZero (fmul (1 / 65536) 44100)) 0
          (loadedState.localAudioBuffer.frameCount : Int) ∧
      st1.isPlaying = loadedState.isPlaying ∧
      st1.localAudioBuffer = loadedState.localAudioBuffer :=
  ⟨rfl, rfl, by decide, by rw [truncToZero_example]; decide,
    SeekTrack_truncates fifoApi (1 / 65536) loadedState [] rfl rfl (by decide)
      (by rw [truncToZero_example]; decide)⟩

/-- Claim C4 fails as stated: on the two-frame track, `SeekTrack(1/65536)` (0.67 of a
frame) leaves the cursor at 0, where `clamp(round(t * 44100), 0, frameCount)` is 1.  Nor
is the cursor the truncation of the exact product: on the ten-second track,
`SeekTrack(0.7f)` puts the cursor at 30870, the float product being rounded up to
30870.0 before the conversion, while the exact product truncates to 30869. -/
theorem SeekTrack_not_rounded :
    (SeekTrack fifoApi (1 / 65536) loadedState).map (fun s => (s.currentFrameIndex : Int)) =
      some 0 ∧
    specSeekFrame (1 / 65536) loadedState.localAudioBuffer.frameCount = 1 ∧
    (SeekTrack fifoApi (11744051 / 2 ^ 24) tenSecondState).map
        (fun s => (s.currentFrameIndex : Int)) = some 30870 ∧
    clamp (truncToZero ((11744051 / 2 ^ 24 : ℚ) * 44100)) 0
      (tenSecondState.localAudioBuffer.frameCount : Int) = 30869 := by
  refine ⟨?_, ?_, ?_, ?_⟩
  · rw [SeekTrack_eq fifoApi (1 / 65536) loadedState [] rfl rfl (by decide)
      (by rw [truncToZero_example]; decide), truncToZero_example]
    decide
  · have hr : round ((1 / 65536 : ℚ) * 44100) = 1 := by
      rw [round_eq, Int.floor_eq_iff]; norm_num
    unfold specSeekFrame
    rw [hr]
    decide
  · have ht : truncToZero (fmul (11744051 / 2 ^ 24) 44100) = 30870 := by
      rw [fmul_seven_tenths]
      exact truncToZero_intCast 30870
    rw [SeekTrack_eq fifoApi (11744051 / 2 ^ 24) tenSecondState [] rfl rfl (by decide)
      (by rw [ht]; decide), ht]
    simp only [Option.map_some']
    decide
  · have ht : truncToZero ((11744051 / 2 ^ 24 : ℚ) * 44100) = 30869 := by
      norm_num [truncToZero]
      rfl
    rw [ht]
    decide

theorem decodedStream_replicate_length (n : Nat) (chunk : List Sample)
    (hc : chunk.length ≠ 0) :
    (decodedStream (List.replicate n chunk)).length = n * chunk.length := by
  induction n with
  | zero => simp [decodedStream]
  | succ k ih =>
    simp only [List.replicate_succ, decodedStream, hc, if_false, List.length_append, ih]
    ring

/-- The run `hugeRun` decodes to a populated buffer of `2^31` frames. -/
theorem LoadAudioDataFFmpeg_hugeRun :
    (LoadAudioDataFFmpeg hugeRun).samples.nonNull = true ∧
    (LoadAudioDataFFmpeg hugeRun).frameCount = 2 ^ 31 := by
  have hlen : (decodedStream hugeRun.chunks).length = 2 ^ 32 := by
    have h := decodedStream_replicate_length (2 ^ 20) (List.replicate 4096 0)
      (by rw [List.length_replicate]; decide)
    rw [List.length_replicate] at h
    exact h
  rw [LoadAudioDataFFmpeg_eq hugeRun ⟨by decide, rfl⟩ ⟨rfl, fun _ => rfl⟩, hlen]
  exact ⟨rfl, by decide⟩

/-- Clearing the playing flag before a seek is the same as clearing it after. -/
theorem SeekTrack_paused {σ : Type} (api : SonicApi σ) (t : ℚ) (st : PlayerState σ) :
    SeekTrack api t { st with isPlaying := false } = (SeekTrack api t st).map PauseTrack := by
  unfold SeekTrack PauseTrack
  generalize truncToZero (fmul t 44100) = f
  by_cases hca : st.currentAudio = true
  · by_cases hfit : fitsInt32 f = true
    · cases hts : st.timeStretcher <;> simp [hca, hfit]
    · simp [hca, hfit]
  · simp [hca]

/-- Claim C10, as amended: in every state `StopTrack` gives the same result as
`SeekTrack(0)` followed by `PauseTrack`; and when a track of fewer than `2^31` frames is
loaded and the engine is live, that result is not playing and has the cursor at 0. -/
theorem StopTrack_eq_seek_then_pause {σ : Type} (api : SonicApi σ) (st : PlayerState σ) :
    StopTrack api st = (SeekTrack api 0 st).map PauseTrack ∧
    (∀ e, st.currentAudio = true → st.timeStretcher = Ptr.live e →
      st.localAudioBuffer.frameCount < 2 ^ 31 →
      ∃ st1, StopTrack api st = some st1 ∧ st1.isPlaying = false ∧
        st1.currentFrameIndex = 0) := by
  constructor
  · exact SeekTrack_paused api 0 st
  · intro e hca hts hfc
    have h0 : truncToZero (fmul 0 44100) = 0 := truncToZero_fmul_zero
    have hfit : fitsInt32 (truncToZero (fmul 0 44100)) = true := by rw [h0]; decide
    refine ⟨_, SeekTrack_eq api 0 { st with isPlaying := false } e hca hts hfc hfit, rfl, ?_⟩
    show (clamp (truncToZero (fmul 0 44100)) 0 (st.localAudioBuffer.frameCount : Int)).toNat = 0
    rw [h0]
    unfold clamp
    rw [min_eq_left (by omega), max_self]
    rfl

theorem StopTrack_eq_seek_then_pause_witness :
    endOfTrackState.currentAudio = true ∧ endOfTrackState.timeStretcher = Ptr.live [] ∧
    endOfTrackState.localAudioBuffer.frameCount < 2 ^ 31 ∧
    ∃ st1, StopTrack fifoApi endOfTrackState = some st1 ∧ st1.isPlaying = false ∧
      st1.currentFrameIndex = 0 :=
  ⟨rfl, rfl, by decide,
    (StopTrack_eq_seek_then_pause fifoApi endOfTrackState).2 [] rfl rfl (by decide)⟩

/-- The cursor `StopTrack` stores when the frame count is `2^31` or more: the frame
count, read as an `int`, is negative, so it replaces frame 0 and is then stored in the
`size_t` cursor. -/
theorem seek_zero_wraps (fc : Nat) (h0 : 2 ^ 31 ≤ fc) (h1 : fc < 2 ^ 32) :
    toSizeT (if (if (0 : Int) < 0 then 0 else 0) > toInt32 (fc : Int) then toInt32 (fc : Int)
      else if (0 : Int) < 0 then 0 else 0) = 2 ^ 64 - 2 ^ 32 + fc := by
  have ht : toInt32 (fc : Int) = (fc : Int) - 2 ^ 32 := by unfold toInt32; omega
  have hneg : (if (0 : Int) < 0 then (0 : Int) else 0) > toInt32 (fc : Int) := by
    rw [ht]; simp only [lt_self_iff_false, if_false]; omega
  rw [if_pos hneg, ht]
  unfold toSizeT
  omega

theorem StopTrack_wraps {σ : Type} (api : SonicApi σ) (st : PlayerState σ) (e : σ)
    (hca : st.currentAudio = true) (hts : st.timeStretcher = Ptr.live e)
    (h0 : 2 ^ 31 ≤ st.localAudioBuffer.frameCount)
    (h1 : st.localAudioBuffer.frameCount < 2 ^ 32) :
    StopTrack api st =
      some { st with
        timeStretcher := Ptr.live (api.setSampleRate e 44100)
        isPlaying := false
        currentFrameIndex := 2 ^ 64 - 2 ^ 32 + st.localAudioBuffer.frameCount } := by
  have hz : truncToZero (fmul 0 44100) = 0 := truncToZero_fmul_zero
  have hfit : fitsInt32 0 = true := by decide
  simp only [StopTrack, SeekTrack, hca, hts, hz, hfit, Bool.not_true, Bool.false_eq_true,
    if_false]
  rw [seek_zero_wraps _ h0 h1]

/-- Loading a track of `2^31` frames or more and then stopping. -/
theorem LoadTrack_then_StopTrack_wraps {σ : Type} (api : SonicApi σ) (run : DecoderRun)
    (st : PlayerState σ) (e : σ) (hts : st.timeStretcher = Ptr.live e)
    (hbuf : st.localAudioBuffer.samples ≠ Ptr.dangling)
    (hdec : (LoadAudioDataFFmpeg run).samples.nonNull = true)
    (h0 : 2 ^ 31 ≤ (LoadAudioDataFFmpeg run).frameCount)
    (h1 : (LoadAudioDataFFmpeg run).frameCount < 2 ^ 32) :
    ((LoadTrack api run st).bind (fun r => StopTrack api r.2)).map
        (fun s => (s.currentAudio, s.localAudioBuffer.frameCount, s.isPlaying,
          s.currentFrameIndex)) =
      some (true, (LoadAudioDataFFmpeg run).frameCount, false,
        2 ^ 64 - 2 ^ 32 + (LoadAudioDataFFmpeg run).frameCount) := by
  rw [LoadTrack_of_nonNull api run st (by rw [hts]; exact fun h => nomatch h) hbuf hdec,
    Option.some_bind]
  rw [StopTrack_wraps api _ (api.setSampleRate e 44100) rfl (by simp [hts, resetHandle]) h0 h1]
  rfl

/-- Claim C10 fails as stated: after loading a track of `2^31` frames, `StopTrack`
leaves the cursor at `2^64 - 2^31`, not at 0 (the frame count does not fit the `int`
it is compared in). -/
theorem StopTrack_huge_track :
    ((LoadTrack fifoApi hugeRun loadedState).bind (fun r => StopTrack fifoApi r.2)).map
        (fun s => (s.currentAudio, s.localAudioBuffer.frameCount, s.isPlaying,
          s.currentFrameIndex)) =
      some (true, 2 ^ 31, false, 2 ^ 64 - 2 ^ 31) := by
  have hf := LoadAudioDataFFmpeg_hugeRun.2
  have h := LoadTrack_then_StopTrack_wraps fifoApi hugeRun loadedState [] rfl (by decide)
    LoadAudioDataFFmpeg_hugeRun.1 (le_of_eq hf.symm) (by rw [hf]; decide)
  rw [hf] at h
  exact h

/-! ## The realtime callback -/

theorem interleave_length (frames : List (Sample × Sample)) :
    (interleave frames).length = frames.length * 2 := by
  induction frames with
  | nil => rfl
  | cons f rest ih => simp only [interleave, List.length_cons, ih]; omega

/-- On a live block holding at least `frameCount` frames the feed loop never reads
outside the block; it only moves the cursor forward, never past `frameCount`, and
with `frameCount - cursor` iterations allowed it stops at the loop's own exit: the
engine has enough, or the cursor has reached `frameCount`. -/
theorem feedLoop_total {σ : Type} (api : SonicApi σ) (data : List Sample) (frameCount : Nat)
    (samplesNeeded : Int) (hlen : frameCount * 2 ≤ data.length) :
    ∀ (fuel : Nat) (e : σ) (cursor : Nat),
      ∃ fed, feedLoop api (Ptr.live data) frameCount samplesNeeded fuel e cursor = some fed ∧
        cursor ≤ fed.cursor ∧ (cursor ≤ frameCount → fed.cursor ≤ frameCount) ∧
        (frameCount - cursor ≤ fuel → api.samplesAvailable fed.engine < samplesNeeded →
          frameCount ≤ fed.cursor) := by
  intro fuel
  induction fuel with
  | zero =>
    intro e cursor
    exact ⟨_, rfl, le_refl _, fun h => h, fun h _ => by simp only at h ⊢; omega⟩
  | succ k ih =>
    intro e cursor
    unfold feedLoop
    by_cases havail : api.samplesAvailable e < samplesNeeded
    · by_cases hend : cursor ≥ frameCount
      · simp only [havail, hend, if_true]
        exact ⟨_, rfl, le_refl _, fun h => h, fun _ _ => hend⟩
      · simp only [havail, hend, if_true, if_false]
        have hchunk : cursor + (if cursor + 1024 > frameCount then frameCount - cursor else 1024)
            ≤ frameCount := by split <;> omega
        have hpos : 0 < (if cursor + 1024 > frameCount then frameCount - cursor else 1024) := by
          split <;> omega
        generalize (if cursor + 1024 > frameCount then frameCount - cursor else 1024) = chunk
          at hchunk hpos ⊢
        have hread : readSamples (Ptr.live data) (cursor * CHANNELS) (chunk * CHANNELS) =
            some ((data.drop (cursor * CHANNELS)).take (chunk * CHANNELS)) := by
          have : cursor * CHANNELS + chunk * CHANNELS ≤ data.length := by
            simp only [CHANNELS]; omega
          simp [readSamples, this]
        obtain ⟨fed, hfed, h1, h2, h3⟩ := ih
          (api.writeFloatToStream e ((data.drop (cursor * CHANNELS)).take (chunk * CHANNELS))
            chunk) (cursor + chunk)
        simp only [hread, hfed]
        refine ⟨_, rfl, ?_, ?_, ?_⟩
        · simp only; omega
        · intro _; exact h2 hchunk
        · intro hf hav; exact h3 (by omega) hav
    · simp only [havail, if_false]
      exact ⟨_, rfl, le_refl _, fun h => h, fun _ h => absurd h havail⟩

/-- The iteration bound of the feed loop is never what stops it: any two bounds of
at least `frameCount - cursor` give the same result, whatever the block and the engine. -/
theorem feedLoop_fuel_irrelevant {σ : Type} (api : SonicApi σ) (data : Ptr (List Sample))
    (frameCount : Nat) (samplesNeeded : Int) :
    ∀ (fuel1 fuel2 : Nat) (e : σ) (cursor : Nat),
      frameCount - cursor ≤ fuel1 → frameCount - cursor ≤ fuel2 →
      feedLoop api data frameCount samplesNeeded fuel1 e cursor =
        feedLoop api data frameCount samplesNeeded fuel2 e cursor := by
  have hzero : ∀ (fuel : Nat) (e : σ) (cursor : Nat), frameCount ≤ cursor →
      feedLoop api data frameCount samplesNeeded fuel e cursor =
        some { engine := e, cursor := cursor, writes := [] } := by
    intro fuel e cursor hc
    cases fuel with
    | zero => rfl
    | succ k =>
      unfold feedLoop
      by_cases havail : api.samplesAvailable e < samplesNeeded
      · simp only [havail, if_true, ge_iff_le, hc]
      · simp only [havail, if_false]
  intro fuel1
  induction fuel1 with
  | zero =>
    intro fuel2 e cursor h1 _
    rw [hzero 0 e cursor (by omega), hzero fuel2 e cursor (by omega)]
  | succ k ih =>
    intro fuel2 e cursor h1 h2
    by_cases hend : frameCount ≤ cursor
    · rw [hzero (k + 1) e cursor hend, hzero fuel2 e cursor hend]
    · cases fuel2 with
      | zero => omega
      | succ m =>
        unfold feedLoop
        by_cases havail : api.samplesAvailable e < samplesNeeded
        · have hpos : 0 < (if cursor + 1024 > frameCount then frameCount - cursor else 1024) := by
            split <;> omega
          simp only [havail, if_true, ge_iff_le, hend, if_false]
          generalize (if cursor + 1024 > frameCount then frameCount - cursor else 1024) = chunk
            at hpos ⊢
          cases readSamples data (cursor * CHANNELS) (chunk * CHANNELS) with
          | none => rfl
          | some block =>
            simp only
            rw [ih m (api.writeFloatToStream e block chunk) (cursor + chunk) (by omega)
              (by omega)]
        · simp only [havail, if_false]

/-- The output block after the engine's frames were stored and the tail was zeroed. -/
theorem memsetZero_storeAt0 (output : Nat → Sample) (written : List Sample) (r n : Nat)
    (hw : written.length = r * 2) (hr : r ≤ n) :
    memsetZero (storeAt0 output written) (r * 2) ((n - r) * 2) =
      definedOutput output n written := by
  funext i
  simp only [memsetZero, storeAt0, definedOutput]
  by_cases h1 : i < r * 2
  · have h2 : ¬ (r * 2 ≤ i ∧ i < r * 2 + (n - r) * 2) := by omega
    have h3 : i < n * 2 := by omega
    rw [if_neg h2, if_pos h3]
    simp [List.getD_eq_getElem?_getD, List.getElem?_eq_getElem (by omega : i < written.length)]
  · by_cases h2 : i < n * 2
    · have h3 : r * 2 ≤ i ∧ i < r * 2 + (n - r) * 2 := by omega
      rw [if_pos h3, if_pos h2]
      simp [List.getD_eq_getElem?_getD, List.getElem?_eq_none (by omega : written.length ≤ i)]
    · have h3 : ¬ (r * 2 ≤ i ∧ i < r * 2 + (n - r) * 2) := by omega
      rw [if_neg h3, if_neg h2]
      simp [List.getD_eq_getElem?_getD, List.getElem?_eq_none (by omega : written.length ≤ i)]

theorem storeAt0_full (output : Nat → Sample) (written : List Sample) (n : Nat)
    (hw : written.length = n * 2) :
    storeAt0 output written = definedOutput output n written := by
  have h := memsetZero_storeAt0 output written n n hw (le_refl n)
  rw [← h]
  funext i
  have hi : ¬ (n * 2 ≤ i ∧ i < n * 2 + (n - n) * 2) := by omega
  simp only [memsetZero, hi, if_false]

theorem memsetZero_silent (output : Nat → Sample) (n : Nat) :
    memsetZero output 0 (n * 2) = definedOutput output n [] := by
  funext i
  simp [memsetZero, definedOutput]

theorem fifoApi_readBounded : fifoApi.readBounded := by
  intro q maxFrames h0
  simp only [fifoApi, List.length_take]
  omega

/-- The silent branch of the callback. -/
theorem AudioInputCallback_silent {σ : Type} (api : SonicApi σ) (output : Nat → Sample)
    (frames : Nat) (st : PlayerState σ) (hs : st.silent = true) :
    AudioInputCallback api output frames st =
      some (memsetZero output 0 (toUInt32 (frames * CHANNELS)), st) := by
  unfold PlayerState.silent at hs
  simp only [AudioInputCallback, hs, if_true]

/-- The playing branch of the callback, for a live engine that honours its read
contract, a live block holding `frameCount` frames and fewer than `2^30` frames asked
for: the feed loop completes, the block handed back holds the engine's frames followed
by zeros, and the state is the fed one, rewound and stopped when the end of the track
is detected. -/
theorem AudioInputCallback_playing {σ : Type} (api : SonicApi σ) (hread : api.readBounded)
    (output : Nat → Sample) (frames : Nat) (st : PlayerState σ) (e : σ) (data : List Sample)
    (hN : frames < 2 ^ 30) (hs : st.silent = false) (hts : st.timeStretcher = Ptr.live e)
    (hd : st.localAudioBuffer.samples = Ptr.live data)
    (hlen : st.localAudioBuffer.frameCount * 2 ≤ data.length) :
    ∃ fed, feedLoop api (Ptr.live data) st.localAudioBuffer.frameCount (frames : Int)
        (st.localAudioBuffer.frameCount - st.currentFrameIndex) e st.currentFrameIndex =
          some fed ∧
      (api.readFloatFromStream fed.engine frames).1.length ≤ frames ∧
      AudioInputCallback api output frames st =
        some (definedOutput output frames (interleave (api.readFloatFromStream fed.engine frames).1),
          if (api.readFloatFromStream fed.engine frames).1.length < frames ∧
              st.localAudioBuffer.frameCount ≤ fed.cursor ∧
              api.samplesAvailable (api.readFloatFromStream fed.engine frames).2 = 0 then
            { st with timeStretcher := Ptr.live (api.readFloatFromStream fed.engine frames).2
                      isPlaying := false, currentFrameIndex := 0 }
          else
            { st with timeStretcher := Ptr.live (api.readFloatFromStream fed.engine frames).2
                      currentFrameIndex := fed.cursor }) := by
  obtain ⟨fed, hfed, -, -, -⟩ := feedLoop_total api data st.localAudioBuffer.frameCount
    (frames : Int) hlen (st.localAudioBuffer.frameCount - st.currentFrameIndex) e
    st.currentFrameIndex
  have hneed : toInt32 (frames : Int) = frames := toInt32_of_fits _ (by omega) (by omega)
  have hR : ((api.readFloatFromStream fed.engine frames).1.length : Int) ≤ frames :=
    hread fed.engine frames (by omega)
  have hR2 : (api.readFloatFromStream fed.engine frames).1.length ≤ frames := by omega
  refine ⟨fed, hfed, hR2, ?_⟩
  unfold PlayerState.silent at hs
  simp only [AudioInputCallback, hs, hts, hneed, Bool.false_eq_true, if_false]
  simp only [hd, hfed]
  generalize api.readFloatFromStream fed.engine frames = rd at hR hR2 ⊢
  by_cases hlt : rd.1.length < frames
  · have hlt2 : (rd.1.length : Int) < frames := by omega
    have hf1 : fitsInt32 ((rd.1.length : Int) * 2) = true := by
      rw [fitsInt32_iff]; omega
    have hf2 : fitsInt32 (((frames : Int) - rd.1.length) * 2) = true := by
      rw [fitsInt32_iff]; omega
    have ht1 : ((rd.1.length : Int) * 2).toNat = rd.1.length * 2 := by omega
    have ht2 : (((frames : Int) - rd.1.length) * 2).toNat = (frames - rd.1.length) * 2 := by
      omega
    have hout := memsetZero_storeAt0 output (interleave rd.1) rd.1.length frames
      (interleave_length rd.1) hR2
    simp only [hlt2, hlt, hf1, hf2, ht1, ht2, hout, if_true, Bool.and_self, true_and, ge_iff_le]
    by_cases hend : st.localAudioBuffer.frameCount ≤ fed.cursor ∧ api.samplesAvailable rd.2 = 0
    · simp only [hend, and_self, if_true]
    · simp only [hend, if_false]
  · have heq : rd.1.length = frames := by omega
    have hlt2 : ¬ (rd.1.length : Int) < frames := by omega
    have hout := storeAt0_full output (interleave rd.1) frames
      (by rw [interleave_length, heq])
    simp only [hlt2, hlt, hout, if_false, false_and]

/-- Claim C2 at the end of the two-frame track (playing, cursor 2 = frameCount, empty
engine, one frame asked for): the callback hands back silence and stops playing, but
it also rewinds the cursor to 0 instead of leaving it at 2; a `PlayTrack` and a second
callback then feed the track from frame 0 and hand back its floats, not silence. -/
theorem AudioInputCallback_end_of_track_rewinds :
    (AudioInputCallback fifoApi staleOutput 1 endOfTrackState).map
        (fun r => (r.2.isPlaying, r.2.currentFrameIndex, [r.1 0, r.1 1])) =
      some (false, 0, [0, 0]) ∧
    ((AudioInputCallback fifoApi staleOutput 1 endOfTrackState).bind
        (fun r => AudioInputCallback fifoApi r.1 2 (PlayTrack r.2))).map
        (fun r => (r.2.isPlaying, r.2.currentFrameIndex, [r.1 0, r.1 1, r.1 2, r.1 3])) =
      some (true, 2, [11, 12, 13, 14]) := by
  constructor <;> decide

/-- Claim C3, as amended: for every state and every frame count `N < 2^30`, the
callback defines exactly the first `N` frames of the output block and leaves the rest
of the block as it was.  In the silent branch (not playing, or no track with samples)
all `N` frames are zero and the state is unchanged.  Otherwise, with a live engine
that honours its read contract and a block holding `frameCount` frames, the feed loop
completes, the engine's read returns `R ≤ N` frames, and the block holds exactly
those `R` frames followed by `N - R` zero frames. -/
theorem AudioInputCallback_defines_frames {σ : Type} (api : SonicApi σ)
    (output : Nat → Sample) (frames : Nat) (st : PlayerState σ) (hN : frames < 2 ^ 30) :
    (st.silent = true →
      AudioInputCallback api output frames st = some (definedOutput output frames [], st)) ∧
    (st.silent = false → api.readBounded →
      ∀ e data, st.timeStretcher = Ptr.live e → st.localAudioBuffer.samples = Ptr.live data →
        st.localAudioBuffer.frameCount * 2 ≤ data.length →
        ∃ fed st1,
          feedLoop api (Ptr.live data) st.localAudioBuffer.frameCount (frames : Int)
            (st.localAudioBuffer.frameCount - st.currentFrameIndex) e st.currentFrameIndex =
              some fed ∧
          (api.readFloatFromStream fed.engine frames).1.length ≤ frames ∧
          AudioInputCallback api output frames st =
            some (definedOutput output frames
              (interleave (api.readFloatFromStream fed.engine frames).1), st1)) := by
  constructor
  · intro hs
    have hu : toUInt32 (frames * CHANNELS) = frames * 2 := by
      simp only [toUInt32, CHANNELS]; omega
    rw [AudioInputCallback_silent api output frames st hs, hu, memsetZero_silent]
  · intro hs hread e data hts hd hlen
    obtain ⟨fed, hfed, hR, hcb⟩ :=
      AudioInputCallback_playing api hread output frames st e data hN hs hts hd hlen
    exact ⟨fed, _, hfed, hR, hcb⟩

theorem AudioInputCallback_defines_frames_witness :
    (3 < 2 ^ 30) ∧ loadedState.silent = true ∧ playingState.silent = false ∧
    fifoApi.readBounded ∧
    AudioInputCallback fifoApi staleOutput 3 loadedState =
      some (definedOutput staleOutput 3 [], loadedState) ∧
    ∃ fed st1,
      feedLoop fifoApi (Ptr.live [11, 12, 13, 14]) 2 3 2 [] 0 = some fed ∧
      (fifoApi.readFloatFromStream fed.engine 3).1.length ≤ 3 ∧
      AudioInputCallback fifoApi staleOutput 3 playingState =
        some (definedOutput staleOutput 3
          (interleave (fifoApi.readFloatFromStream fed.engine 3).1), st1) :=
  ⟨by decide, by decide, by decide, fifoApi_readBounded,
    (AudioInputCallback_defines_frames fifoApi staleOutput 3 loadedState (by decide)).1
      (by decide),
    (AudioInputCallback_defines_frames fifoApi staleOutput 3 playingState (by decide)).2
      (by decide) fifoApi_readBounded [] [11, 12, 13, 14] rfl rfl (by decide)⟩

/-- Claim C3 fails as stated: asked for `2^31` frames while not playing, the callback
zeroes nothing (the byte count `frames * CHANNELS` is computed in `unsigned int` and
wraps to 0), so the first frame of the block still holds what it held before. -/
theorem AudioInputCallback_frame_count_wraps :
    loadedState.silent = true ∧
    (AudioInputCallback fifoApi staleOutput (2 ^ 31) loadedState).map
        (fun r => [r.1 0, r.1 1]) = some [7, 7] := by
  constructor <;> decide

/-! ## The cursor invariant -/

/-- The loader returns the zeroed struct, or the buffer built from the final state of
the read loop. -/
theorem LoadAudioDataFFmpeg_shape (run : DecoderRun) :
    LoadAudioDataFFmpeg run = AudioBuffer.zero ∨
      ∃ st1, readLoop run.reallocOk run.chunks ReadState.init = some st1 ∧
        LoadAudioDataFFmpeg run =
          { samples := Ptr.live st1.data
            channels := 2
            sampleRate := 44100
            sampleCount := toUInt32 st1.count
            frameCount := toUInt32 (st1.count / 2) } := by
  unfold LoadAudioDataFFmpeg
  split
  · exact Or.inl rfl
  · split
    · exact Or.inl rfl
    · split
      · exact Or.inl rfl
      · split
        · exact Or.inl rfl
        · rename_i st1 h4
          split
          · exact Or.inl rfl
          · exact Or.inr ⟨st1, h4, rfl⟩

/-- A buffer returned by the loader holds at least `frameCount` frames. -/
theorem LoadAudioDataFFmpeg_block (run : DecoderRun) (data : List Sample)
    (h : (LoadAudioDataFFmpeg run).samples = Ptr.live data) :
    (LoadAudioDataFFmpeg run).frameCount * 2 ≤ data.length := by
  rcases LoadAudioDataFFmpeg_shape run with h0 | ⟨st1, hloop, heq⟩
  · rw [h0] at h; simp [AudioBuffer.zero] at h
  · obtain ⟨hd, hc⟩ := readLoop_data _ _ _ _ hloop
    rw [heq] at h ⊢
    have hdata : st1.data = data := by simpa using h
    have hlen : data.length = st1.count := by
      rw [← hdata, hd, hc]; simp [ReadState.init]
    show toUInt32 (st1.count / 2) * 2 ≤ data.length
    unfold toUInt32
    omega

theorem sound_of_live {σ : Type} (st : PlayerState σ) (hs : st.sound)
    (hnn : st.localAudioBuffer.samples.nonNull = true) :
    ∃ data, st.localAudioBuffer.samples = Ptr.live data := by
  cases hd : st.localAudioBuffer.samples with
  | null => rw [hd] at hnn; simp [Ptr.nonNull] at hnn
  | live data => exact ⟨data, rfl⟩
  | dangling => exact absurd hd hs.2.1

theorem SeekTrack_sound {σ : Type} (api : SonicApi σ) (t : ℚ) (st : PlayerState σ)
    (hs : st.sound) (hfit : fitsInt32 (truncToZero (fmul t 44100)) = true) :
    ∃ st1, SeekTrack api t st = some st1 ∧ st1.sound := by
  obtain ⟨⟨e, hts⟩, hnd, hfc, hblk⟩ := hs
  by_cases hca : st.currentAudio = true
  · refine ⟨_, SeekTrack_eq api t st e hca hts hfc hfit, ⟨_, rfl⟩, hnd, hfc, ?_⟩
    intro data hd
    refine ⟨(hblk data hd).1, ?_⟩
    show (clamp (truncToZero (fmul t 44100)) 0 (st.localAudioBuffer.frameCount : Int)).toNat ≤
      st.localAudioBuffer.frameCount
    have hc1 : clamp (truncToZero (fmul t 44100)) 0 (st.localAudioBuffer.frameCount : Int) ≤
        st.localAudioBuffer.frameCount := max_le (by omega) (min_le_right _ _)
    omega
  · refine ⟨st, ?_, ⟨e, hts⟩, hnd, hfc, hblk⟩
    simp [SeekTrack, hca]

theorem LoadTrack_sound {σ : Type} (api : SonicApi σ) (run : DecoderRun) (st : PlayerState σ)
    (hs : st.sound) (hfc : (LoadAudioDataFFmpeg run).frameCount < 2 ^ 31) :
    ∃ r, LoadTrack api run st = some r ∧ r.2.sound := by
  obtain ⟨⟨e, hts⟩, hnd, -, -⟩ := hs
  by_cases hdec : (LoadAudioDataFFmpeg run).samples.nonNull = true
  · refine ⟨_, LoadTrack_of_nonNull api run st (by rw [hts]; exact fun h => nomatch h) hnd hdec,
      ⟨api.setSampleRate e 44100, by simp [hts, resetHandle]⟩, ?_, hfc, ?_⟩
    · intro hdang
      rw [show (LoadAudioDataFFmpeg run).samples = Ptr.dangling from hdang] at hdec
      rcases LoadAudioDataFFmpeg_cases run with h0 | ⟨data, hd⟩
      · rw [h0] at hdang; simp [AudioBuffer.zero] at hdang
      · rw [hd] at hdang; cases hdang
    · intro data hd
      exact ⟨LoadAudioDataFFmpeg_block run data hd, Nat.zero_le _⟩
  · have hdec2 : (LoadAudioDataFFmpeg run).samples.nonNull = false := by
      simpa using hdec
    refine ⟨_, LoadTrack_of_null api run st hnd hdec2, ⟨e, hts⟩, ?_, ?_, ?_⟩
    · simp [AudioBuffer.zero]
    · simp [AudioBuffer.zero]
    · intro data hd
      simp [AudioBuffer.zero] at hd

theorem AudioInputCallback_sound {σ : Type} (api : SonicApi σ) (hread : api.readBounded)
    (output : Nat → Sample) (frames : Nat) (st : PlayerState σ) (hs : st.sound)
    (hN : frames < 2 ^ 30) :
    ∃ r, AudioInputCallback api output frames st = some r ∧ r.2.sound := by
  by_cases hsil : st.silent = true
  · exact ⟨_, AudioInputCallback_silent api output frames st hsil, hs⟩
  · have hsil2 : st.silent = false := by simpa using hsil
    have hnn : st.localAudioBuffer.samples.nonNull = true := by
      unfold PlayerState.silent at hsil2
      simp only [Bool.or_eq_false_iff, Bool.not_eq_false'] at hsil2
      simpa using hsil2.2
    obtain ⟨data, hd⟩ := sound_of_live st hs hnn
    obtain ⟨⟨e, hts⟩, hnd, hfc, hblk⟩ := hs
    obtain ⟨hlen, hcur⟩ := hblk data hd
    obtain ⟨fed, hfed, -, hcb⟩ :=
      AudioInputCallback_playing api hread output frames st e data hN hsil2 hts hd hlen
    obtain ⟨fed2, hfed2, -, hle, -⟩ := feedLoop_total api data st.localAudioBuffer.frameCount
      (frames : Int) hlen (st.localAudioBuffer.frameCount - st.currentFrameIndex) e
      st.currentFrameIndex
    have hfeq : fed2 = fed := by rw [hfed] at hfed2; exact (Option.some.inj hfed2).symm
    subst hfeq
    refine ⟨_, hcb, ?_⟩
    split
    · exact ⟨⟨_, rfl⟩, hnd, hfc, fun d hd2 => ⟨(hblk d hd2).1, Nat.zero_le _⟩⟩
    · exact ⟨⟨_, rfl⟩, hnd, hfc, fun d hd2 => ⟨(hblk d hd2).1, hle hcur⟩⟩

theorem Op_apply_sound {σ : Type} (api : SonicApi σ) (hread : api.readBounded) (op : Op)
    (st : PlayerState σ) (hs : st.sound) (hop : op.inRange) :
    ∃ st1, op.apply api st = some st1 ∧ st1.sound := by
  cases op with
  | load run =>
    obtain ⟨r, hr, hrs⟩ := LoadTrack_sound api run st hs hop
    exact ⟨r.2, by simp [Op.apply, hr], hrs⟩
  | play =>
    refine ⟨_, rfl, ?_⟩
    unfold PlayTrack
    split
    · exact hs
    · exact hs
  | pause => exact ⟨_, rfl, hs⟩
  | stop =>
    have h0 : truncToZero (fmul 0 44100) = 0 := truncToZero_fmul_zero
    exact SeekTrack_sound api 0 { st with isPlaying := false } hs (by rw [h0]; decide)
  | seek t => exact SeekTrack_sound api t st hs hop
  | setSpeed v =>
    obtain ⟨⟨e, hts⟩, hnd, hfc, hblk⟩ := hs
    have h : SetTrackSpeed api v st =
        some { st with
          currentSpeed := if (if v < 1 / 2 then (1 / 2 : ℚ) else v) > 3 then 3
            else (if v < 1 / 2 then (1 / 2 : ℚ) else v)
          timeStretcher := Ptr.live (api.setSpeed e
            (if (if v < 1 / 2 then (1 / 2 : ℚ) else v) > 3 then 3
              else (if v < 1 / 2 then (1 / 2 : ℚ) else v))) } := by
      simp only [SetTrackSpeed, hts]
    exact ⟨_, h, ⟨_, rfl⟩, hnd, hfc, hblk⟩
  | callback output frames =>
    obtain ⟨r, hr, hrs⟩ := AudioInputCallback_sound api hread output frames st hs hop
    exact ⟨r.2, by simp [Op.apply, hr], hrs⟩

theorem runOps_sound {σ : Type} (api : SonicApi σ) (hread : api.readBounded) (ops : List Op) :
    ∀ st : PlayerState σ, st.sound → (∀ op ∈ ops, op.inRange) →
      ∃ st1, runOps api ops st = some st1 ∧ st1.sound := by
  induction ops with
  | nil => intro st hs _; exact ⟨st, rfl, hs⟩
  | cons op rest ih =>
    intro st hs hops
    obtain ⟨st1, h1, hs1⟩ := Op_apply_sound api hread op st hs (hops op (List.mem_cons_self _ _))
    obtain ⟨st2, h2, hs2⟩ := ih st1 hs1 (fun o ho => hops o (List.mem_cons_of_mem _ ho))
    exact ⟨st2, by simp [runOps, h1, h2], hs2⟩

theorem InitAudioPlayerSystem_sound {σ : Type} (api : SonicApi σ) (st0 : PlayerState σ)
    (hinit : InitAudioPlayerSystem api (PlayerState.initial σ) = some st0) : st0.sound := by
  unfold InitAudioPlayerSystem at hinit
  simp only [PlayerState.initial, Bool.false_eq_true, if_false] at hinit
  cases hc : api.createStream 44100 2 with
  | none => simp [hc] at hinit
  | some e =>
    simp only [hc] at hinit
    have h := Option.some.inj hinit
    subst h
    refine ⟨⟨_, rfl⟩, ?_, ?_, ?_⟩
    · simp [AudioBuffer.zero]
    · simp [AudioBuffer.zero]
    · intro data hd; simp [AudioBuffer.zero] at hd

/-- Claim C6, as amended: start from the state `InitAudioPlayerSystem` produces and
apply any sequence of `LoadTrack` (succeeding or failing), `PlayTrack`, `PauseTrack`,
`StopTrack`, `SeekTrack`, `SetTrackSpeed` and `AudioInputCallback` whose arguments are
in range (tracks under `2^31` frames, seek frame numbers that fit an `int`, fewer than
`2^30` frames per callback), with an engine that honours its read contract.  Every
operation completes, and in the state reached `cursorFrame <= frameCount` holds
whenever the buffer slot holds samples.  (After a failed load the slot is empty, with
`frameCount = 0`, and the cursor keeps the value it had.) -/
theorem cursor_in_range_while_loaded {σ : Type} (api : SonicApi σ) (hread : api.readBounded)
    (st0 : PlayerState σ)
    (hinit : InitAudioPlayerSystem api (PlayerState.initial σ) = some st0)
    (ops : List Op) (hops : ∀ op ∈ ops, op.inRange) :
    ∃ st1, runOps api ops st0 = some st1 ∧
      (st1.localAudioBuffer.samples.nonNull = true → cursorInRange st1) := by
  obtain ⟨st1, hrun, hs1⟩ :=
    runOps_sound api hread ops st0 (InitAudioPlayerSystem_sound api st0 hinit) hops
  refine ⟨st1, hrun, fun hnn => ?_⟩
  obtain ⟨data, hd⟩ := sound_of_live st1 hs1 hnn
  exact (hs1.2.2.2 data hd).2

theorem sessionOps_inRange : ∀ op ∈ sessionOps, op.inRange := by
  intro op hop
  simp only [sessionOps, List.mem_cons, List.mem_singleton, List.not_mem_nil, or_false] at hop
  rcases hop with h | h | h | h | h | h | h | h <;> subst h
  · show (LoadAudioDataFFmpeg (goodRun [[11, 12, 13, 14]])).frameCount < 2 ^ 31
    decide
  · trivial
  · show 1 < 2 ^ 30
    decide
  · show fitsInt32 (truncToZero (fmul 1 44100)) = true
    have h : truncToZero (fmul 1 44100) = 44100 := by
      rw [fmul_one_second]; norm_num [truncToZero]
    rw [h]; decide
  · trivial
  · trivial
  · trivial
  · show (LoadAudioDataFFmpeg missingFileRun).frameCount < 2 ^ 31
    decide

theorem cursor_in_range_while_loaded_witness :
    fifoApi.readBounded ∧
    InitAudioPlayerSystem fifoApi (PlayerState.initial (List (Sample × Sample))) =
      some idleState ∧
    (∀ op ∈ sessionOps, op.inRange) ∧
    ∃ st1, runOps fifoApi sessionOps idleState = some st1 ∧
      (st1.localAudioBuffer.samples.nonNull = true → cursorInRange st1) :=
  ⟨fifoApi_readBounded, rfl, sessionOps_inRange,
    cursor_in_range_while_loaded fifoApi fifoApi_readBounded idleState rfl sessionOps
      sessionOps_inRange⟩

/-- Claim C6 fails as stated: initialise, load the two-frame track, play, let one
callback feed it (cursor 2), then load a missing file.  The load fails, the buffer
referenced has `frameCount = 0`, and the cursor is still 2. -/
theorem cursor_past_emptied_buffer :
    ((InitAudioPlayerSystem fifoApi (PlayerState.initial (List (Sample × Sample)))).bind
        (runOps fifoApi [Op.load (goodRun [[11, 12, 13, 14]]), Op.play,
          Op.callback staleOutput 1, Op.load missingFileRun])).map
        (fun s => (s.currentAudio, s.currentFrameIndex, s.localAudioBuffer.frameCount)) =
      some (true, 2, 0) := by
  decide

/-! ## The concrete states are reachable -/

/-- The state `loadedState` is what loading the two-frame track into the freshly
initialised player gives. -/
theorem loadedState_reachable :
    InitAudioPlayerSystem fifoApi (PlayerState.initial (List (Sample × Sample))) =
      some idleState ∧
    runOps fifoApi [Op.load (goodRun [[11, 12, 13, 14]])] idleState = some loadedState :=
  ⟨rfl, rfl⟩

/-- The state `endOfTrackState` is what seeking to 1 s and pressing play gives on
`loadedState`; `playingState` is `loadedState` after play. -/
theorem endOfTrackState_reachable :
    runOps fifoApi [Op.seek 1, Op.play] loadedState = some endOfTrackState ∧
    runOps fifoApi [Op.play] loadedState = some playingState := by
  have h : truncToZero (fmul 1 44100) = 44100 := by
    rw [fmul_one_second]; norm_num [truncToZero]
  have hseek := SeekTrack_eq fifoApi 1 loadedState [] rfl rfl (by decide) (by rw [h]; decide)
  rw [h] at hseek
  constructor
  · simp only [runOps, Op.apply, hseek, Option.some_bind]
    rfl
  · rfl

/-! ## Play, pause and the time queries -/

/-- Claim C11: `PlayTrack` sets `isPlaying` to true, changing nothing else, exactly when
a buffer with samples is present; otherwise it leaves the whole state as it was. -/
theorem PlayTrack_iff_hasSamples {σ : Type} (st : PlayerState σ) :
    PlayTrack st = (if st.hasSamples then { st with isPlaying := true } else st) ∧
    ((PlayTrack st).isPlaying = true ↔ st.hasSamples = true ∨ st.isPlaying = true) ∧
    (st.hasSamples = false ↔ (st.currentAudio = false ∨ st.localAudioBuffer.samples = Ptr.null)) := by
  refine ⟨rfl, ?_, ?_⟩
  · unfold PlayTrack PlayerState.hasSamples
    by_cases h : (st.currentAudio && st.localAudioBuffer.samples.nonNull) = true
    · simp [h]
    · simp [h]
  · unfold PlayerState.hasSamples
    cases hs : st.localAudioBuffer.samples <;> cases hc : st.currentAudio <;> simp [Ptr.nonNull]

/-- Claim C12: in every state `PlayTrack` and `PauseTrack` leave the cursor where it is,
and applying either of them twice gives the same state as applying it once. -/
theorem PlayTrack_PauseTrack_idempotent {σ : Type} (st : PlayerState σ) :
    (PlayTrack st).currentFrameIndex = st.currentFrameIndex ∧
    (PauseTrack st).currentFrameIndex = st.currentFrameIndex ∧
    PlayTrack (PlayTrack st) = PlayTrack st ∧
    PauseTrack (PauseTrack st) = PauseTrack st := by
  refine ⟨?_, rfl, ?_, rfl⟩
  · unfold PlayTrack
    split <;> rfl
  · unfold PlayTrack
    by_cases h : (st.currentAudio && st.localAudioBuffer.samples.nonNull) = true
    · simp [h]
    · simp [h]

theorem truncToZero_natCast (n : Nat) : truncToZero (n : ℚ) = n := by
  simp [truncToZero]

/-- Claim C16, as amended: with a 441000-frame track loaded and a live engine,
`SeekTrack(5.0)` puts the cursor at 220500, after which `GetTrackTime()` is 5 and
`GetTrackDuration()` is 10; in every state with a buffer referenced the two queries are
the float quotients `fl(fl(cursorFrame) / 44100)` and `fl(fl(frameCount) / 44100)`, that
is the count converted to binary32 and divided by 44100 in binary32, and both are 0
while no track was ever loaded. -/
theorem SeekTrack_five_seconds {σ : Type} (api : SonicApi σ) (st : PlayerState σ) :
    (∀ e, st.currentAudio = true → st.timeStretcher = Ptr.live e →
      st.localAudioBuffer.frameCount = 441000 →
      ∃ st1, SeekTrack api 5 st = some st1 ∧ st1.currentFrameIndex = 220500 ∧
        GetTrackTime st1 = 5 ∧ GetTrackDuration st1 = 10) ∧
    (st.currentAudio = true →
      GetTrackTime st = roundF32 (roundF32 (st.currentFrameIndex : ℚ) / 44100) ∧
      GetTrackDuration st = roundF32 (roundF32 (st.localAudioBuffer.frameCount : ℚ) / 44100)) ∧
    (st.currentAudio = false → GetTrackTime st = 0 ∧ GetTrackDuration st = 0) ∧
    GetTrackTime (PlayerState.initial σ) = 0 ∧ GetTrackDuration (PlayerState.initial σ) = 0 := by
  refine ⟨?_, ?_, ?_, rfl, rfl⟩
  · intro e hca hts hfc
    have h5 : truncToZero (fmul 5 44100) = 220500 := by
      rw [fmul_five_seconds]; norm_num [truncToZero]
    have hseek := SeekTrack_eq api 5 st e hca hts (by rw [hfc]; decide)
      (by rw [h5]; decide)
    rw [h5, hfc] at hseek
    have hc : (clamp (220500 : Int) 0 ((441000 : Nat) : Int)).toNat = 220500 := by decide
    rw [hc] at hseek
    refine ⟨_, hseek, rfl, ?_, ?_⟩
    · simp only [GetTrackTime, hca, Bool.not_true, Bool.false_eq_true, if_false,
        Nat.cast_ofNat]
      exact fdiv_five_seconds
    · simp only [GetTrackDuration, hca, hfc, Bool.not_true, Bool.false_eq_true, if_false,
        Nat.cast_ofNat]
      exact fdiv_ten_seconds
  · intro hca
    simp [GetTrackTime, GetTrackDuration, hca, fdiv]
  · intro hca
    simp [GetTrackTime, GetTrackDuration, hca]

theorem SeekTrack_five_seconds_witness :
    tenSecondState.currentAudio = true ∧ tenSecondState.timeStretcher = Ptr.live [] ∧
    tenSecondState.localAudioBuffer.frameCount = 441000 ∧
    ∃ st1, SeekTrack fifoApi 5 tenSecondState = some st1 ∧ st1.currentFrameIndex = 220500 ∧
      GetTrackTime st1 = 5 ∧ GetTrackDuration st1 = 10 :=
  ⟨rfl, rfl, rfl, (SeekTrack_five_seconds fifoApi tenSecondState).1 [] rfl rfl rfl⟩

/-- Claim C16 fails as stated: for the two-frame track `GetTrackDuration()` is the float
6233059 / 2^37, not `frameCount / 44100 = 2 / 44100`. -/
theorem GetTrackDuration_is_rounded :
    GetTrackDuration loadedState = 6233059 / 2 ^ 37 ∧
    GetTrackDuration loadedState ≠ (loadedState.localAudioBuffer.frameCount : ℚ) / 44100 := by
  have h : GetTrackDuration loadedState = 6233059 / 2 ^ 37 := by
    unfold GetTrackDuration
    simp only [loadedState, Bool.not_true, Bool.false_eq_true, if_false, Nat.cast_ofNat]
    exact fdiv_two_frames
  refine ⟨h, ?_⟩
  rw [h]
  simp only [loadedState, Nat.cast_ofNat]
  norm_num

/-! ## The feed loop: bounds and termination -/

theorem feedChain_mem (frameCount : Nat) :
    ∀ (ws : List (Nat × Nat)) (cursor final : Nat), feedChain frameCount cursor ws final →
      (∀ w ∈ ws, cursor ≤ w.1 ∧ 1 ≤ w.2 ∧ w.2 ≤ 1024 ∧ w.1 + w.2 ≤ frameCount) ∧
      final = cursor + (ws.map Prod.snd).sum := by
  intro ws
  induction ws with
  | nil =>
    intro cursor final h
    simp only [feedChain] at h
    exact ⟨fun w hw => (nomatch hw), by simp [h]⟩
  | cons w rest ih =>
    intro cursor final h
    simp only [feedChain] at h
    obtain ⟨h1, h2, h3, h4, h5⟩ := h
    obtain ⟨ih1, ih2⟩ := ih _ _ h5
    constructor
    · intro x hx
      rcases List.mem_cons.mp hx with hx | hx
      · subst hx; exact ⟨by omega, h2, h3, h4⟩
      · obtain ⟨a, b, c, d⟩ := ih1 x hx
        exact ⟨by omega, b, c, d⟩
    · simp only [List.map_cons, List.sum_cons]
      omega

/-- On a live block holding `frameCount` frames the feed loop completes for any bound;
its writes form a chain from the starting cursor to the final one, and with at least
`frameCount - cursor` iterations allowed there are at most
`ceil((frameCount - cursor) / 1024)` of them. -/
theorem feedLoop_chain {σ : Type} (api : SonicApi σ) (data : List Sample) (frameCount : Nat)
    (samplesNeeded : Int) (hlen : frameCount * 2 ≤ data.length) :
    ∀ (fuel : Nat) (e : σ) (cursor : Nat),
      ∃ fed, feedLoop api (Ptr.live data) frameCount samplesNeeded fuel e cursor = some fed ∧
        feedChain frameCount cursor fed.writes fed.cursor ∧
        fed.writes.length ≤ (frameCount - cursor + 1023) / 1024 := by
  intro fuel
  induction fuel with
  | zero =>
    intro e cursor
    exact ⟨_, rfl, rfl, Nat.zero_le _⟩
  | succ k ih =>
    intro e cursor
    unfold feedLoop
    by_cases havail : api.samplesAvailable e < samplesNeeded
    · by_cases hend : cursor ≥ frameCount
      · simp only [havail, hend, if_true]
        exact ⟨_, rfl, rfl, Nat.zero_le _⟩
      · simp only [havail, hend, if_true, if_false]
        have hchunk : cursor + (if cursor + 1024 > frameCount then frameCount - cursor else 1024)
            ≤ frameCount := by split <;> omega
        have hpos : 1 ≤ (if cursor + 1024 > frameCount then frameCount - cursor else 1024) := by
          split <;> omega
        have hmax : (if cursor + 1024 > frameCount then frameCount - cursor else 1024) ≤ 1024 := by
          split <;> omega
        have hcount : (frameCount - (cursor +
            (if cursor + 1024 > frameCount then frameCount - cursor else 1024)) + 1023) / 1024 + 1
            ≤ (frameCount - cursor + 1023) / 1024 := by
          split <;> omega
        generalize (if cursor + 1024 > frameCount then frameCount - cursor else 1024) = chunk
          at hchunk hpos hmax hcount ⊢
        have hread : readSamples (Ptr.live data) (cursor * CHANNELS) (chunk * CHANNELS) =
            some ((data.drop (cursor * CHANNELS)).take (chunk * CHANNELS)) := by
          have : cursor * CHANNELS + chunk * CHANNELS ≤ data.length := by
            simp only [CHANNELS]; omega
          simp [readSamples, this]
        obtain ⟨fed, hfed, h1, h2⟩ := ih
          (api.writeFloatToStream e ((data.drop (cursor * CHANNELS)).take (chunk * CHANNELS))
            chunk) (cursor + chunk)
        simp only [hread, hfed]
        refine ⟨_, rfl, ?_, ?_⟩
        · exact (show _ ∧ _ ∧ _ ∧ _ ∧ _ from ⟨rfl, hpos, hmax, hchunk, h1⟩)
        · simp only [List.length_cons]; omega
    · simp only [havail, if_false]
      exact ⟨_, rfl, rfl, Nat.zero_le _⟩

/-- Claim C17: in every state whose block holds `sampleCount` floats with
`frameCount * 2 <= sampleCount`, the feed loop of `AudioInputCallback` completes, and
every chunk it writes to the engine starts at the frame the cursor has reached (sample
index `cursor * 2`), has between 1 and 1024 frames and ends at or before sample index
`frameCount * 2`, hence inside `[0, sampleCount)`; the cursor the loop leaves is the
starting cursor plus the total number of frames fed. -/
theorem AudioInputCallback_feed_chunks {σ : Type} (api : SonicApi σ) (st : PlayerState σ)
    (e : σ) (data : List Sample) (frames : Nat)
    (hd : st.localAudioBuffer.samples = Ptr.live data)
    (hsc : st.localAudioBuffer.frameCount * 2 ≤ st.localAudioBuffer.sampleCount)
    (hblk : st.localAudioBuffer.sampleCount ≤ data.length) :
    ∃ fed,
      feedLoop api st.localAudioBuffer.samples st.localAudioBuffer.frameCount (toInt32 frames)
        (st.localAudioBuffer.frameCount - st.currentFrameIndex) e st.currentFrameIndex =
          some fed ∧
      feedChain st.localAudioBuffer.frameCount st.currentFrameIndex fed.writes fed.cursor ∧
      (∀ w ∈ fed.writes, 1 ≤ w.2 ∧ w.2 ≤ 1024 ∧
        st.currentFrameIndex * 2 ≤ w.1 * 2 ∧
        (w.1 + w.2) * 2 ≤ st.localAudioBuffer.frameCount * 2 ∧
        (w.1 + w.2) * 2 ≤ st.localAudioBuffer.sampleCount) ∧
      fed.cursor = st.currentFrameIndex + (fed.writes.map Prod.snd).sum := by
  obtain ⟨fed, hfed, hchain, -⟩ := feedLoop_chain api data st.localAudioBuffer.frameCount
    (toInt32 frames) (by omega) (st.localAudioBuffer.frameCount - st.currentFrameIndex) e
    st.currentFrameIndex
  obtain ⟨hmem, hsum⟩ := feedChain_mem _ _ _ _ hchain
  refine ⟨fed, by rw [hd]; exact hfed, hchain, ?_, hsum⟩
  intro w hw
  obtain ⟨a, b, c, d⟩ := hmem w hw
  exact ⟨b, c, by omega, by omega, by omega⟩

theorem AudioInputCallback_feed_chunks_witness :
    playingState.localAudioBuffer.samples = Ptr.live [11, 12, 13, 14] ∧
    playingState.localAudioBuffer.frameCount * 2 ≤ playingState.localAudioBuffer.sampleCount ∧
    playingState.localAudioBuffer.sampleCount ≤ [11, 12, 13, 14].length ∧
    ∃ fed,
      feedLoop fifoApi playingState.localAudioBuffer.samples
        playingState.localAudioBuffer.frameCount (toInt32 3)
        (playingState.localAudioBuffer.frameCount - playingState.currentFrameIndex) []
        playingState.currentFrameIndex = some fed ∧
      feedChain playingState.localAudioBuffer.frameCount playingState.currentFrameIndex
        fed.writes fed.cursor ∧
      (∀ w ∈ fed.writes, 1 ≤ w.2 ∧ w.2 ≤ 1024 ∧
        playingState.currentFrameIndex * 2 ≤ w.1 * 2 ∧
        (w.1 + w.2) * 2 ≤ playingState.localAudioBuffer.frameCount * 2 ∧
        (w.1 + w.2) * 2 ≤ playingState.localAudioBuffer.sampleCount) ∧
      fed.cursor = playingState.currentFrameIndex + (fed.writes.map Prod.snd).sum :=
  ⟨rfl, by decide, by decide,
    AudioInputCallback_feed_chunks fifoApi playingState [] [11, 12, 13, 14] 3 rfl (by decide)
      (by decide)⟩

/-- Claim C19: whatever the engine reports and whatever count is asked for, the feed
loop of `AudioInputCallback` terminates on a block holding `frameCount` frames: the
result is the same for every iteration bound of at least `frameCount - cursor`, the
loop ends at its own exit (the engine has enough, or the cursor has reached
`frameCount`), every write moves the cursor strictly forward, and there are at most
`ceil((frameCount - cursor) / 1024)` writes. -/
theorem feedLoop_terminates {σ : Type} (api : SonicApi σ) (st : PlayerState σ) (e : σ)
    (data : List Sample) (samplesNeeded : Int)
    (hd : st.localAudioBuffer.samples = Ptr.live data)
    (hlen : st.localAudioBuffer.frameCount * 2 ≤ data.length) :
    ∃ fed,
      (∀ fuel, st.localAudioBuffer.frameCount - st.currentFrameIndex ≤ fuel →
        feedLoop api st.localAudioBuffer.samples st.localAudioBuffer.frameCount samplesNeeded
          fuel e st.currentFrameIndex = some fed) ∧
      (¬ api.samplesAvailable fed.engine < samplesNeeded ∨
        st.localAudioBuffer.frameCount ≤ fed.cursor) ∧
      feedChain st.localAudioBuffer.frameCount st.currentFrameIndex fed.writes fed.cursor ∧
      (∀ w ∈ fed.writes, w.1 < w.1 + w.2) ∧
      fed.writes.length ≤
        (st.localAudioBuffer.frameCount - st.currentFrameIndex + 1023) / 1024 := by
  obtain ⟨fed, hfed, hchain, hcount⟩ := feedLoop_chain api data
    st.localAudioBuffer.frameCount samplesNeeded hlen
    (st.localAudioBuffer.frameCount - st.currentFrameIndex) e st.currentFrameIndex
  obtain ⟨fed2, hfed2, -, -, hexit⟩ := feedLoop_total api data
    st.localAudioBuffer.frameCount samplesNeeded hlen
    (st.localAudioBuffer.frameCount - st.currentFrameIndex) e st.currentFrameIndex
  have hfeq : fed2 = fed := by rw [hfed] at hfed2; exact (Option.some.inj hfed2).symm
  subst hfeq
  obtain ⟨hmem, -⟩ := feedChain_mem _ _ _ _ hchain
  refine ⟨fed2, ?_, ?_, hchain, ?_, hcount⟩
  · intro fuel hfuel
    rw [hd, feedLoop_fuel_irrelevant api (Ptr.live data) st.localAudioBuffer.frameCount
      samplesNeeded fuel (st.localAudioBuffer.frameCount - st.currentFrameIndex) e
      st.currentFrameIndex hfuel (le_refl _)]
    exact hfed
  · by_cases hav : api.samplesAvailable fed2.engine < samplesNeeded
    · exact Or.inr (hexit (le_refl _) hav)
    · exact Or.inl hav
  · intro w hw
    have := (hmem w hw).2.1
    omega

theorem feedLoop_terminates_witness :
    playingState.localAudioBuffer.samples = Ptr.live [11, 12, 13, 14] ∧
    playingState.localAudioBuffer.frameCount * 2 ≤ [11, 12, 13, 14].length ∧
    ∃ fed,
      (∀ fuel, playingState.localAudioBuffer.frameCount - playingState.currentFrameIndex ≤ fuel →
        feedLoop fifoApi playingState.localAudioBuffer.samples
          playingState.localAudioBuffer.frameCount 3 fuel [] playingState.currentFrameIndex =
            some fed) ∧
      (¬ fifoApi.samplesAvailable fed.engine < 3 ∨
        playingState.localAudioBuffer.frameCount ≤ fed.cursor) ∧
      feedChain playingState.localAudioBuffer.frameCount playingState.currentFrameIndex
        fed.writes fed.cursor ∧
      (∀ w ∈ fed.writes, w.1 < w.1 + w.2) ∧
      fed.writes.length ≤
        (playingState.localAudioBuffer.frameCount - playingState.currentFrameIndex + 1023) /
          1024 :=
  ⟨rfl, by decide,
    feedLoop_terminates fifoApi playingState [] [11, 12, 13, 14] 3 rfl (by decide)⟩

/-! ## The loader: contents and capacity -/

theorem readStep_spec (ok : Nat → Bool) (st st1 : ReadState) (chunk : List Sample)
    (h : readStep ok st chunk = some st1) :
    st1.data = st.data ++ chunk ∧ st1.count = st.count + chunk.length ∧
      st1.capacity = capacityAtCopy st chunk.length := by
  unfold readStep at h
  unfold capacityAtCopy
  by_cases hg : st.count + chunk.length > st.capacity
  · by_cases hr : ok (st.capacity * 2 * 4) = true
    · simp [hg, hr] at h; subst h; simp [hg]
    · simp [hg, hr] at h
  · simp [hg] at h; subst h; simp [hg]

/-- Along the read loop `count <= capacity` and `capacity >= 1048576` hold, as long as
no `fread` returns more than 4096 floats. -/
theorem readLoop_capacity (ok : Nat → Bool) (chunks : List (List Sample)) :
    ∀ (st st1 : ReadState), st.count ≤ st.capacity → 1048576 ≤ st.capacity →
      (∀ c ∈ chunks, c.length ≤ 4096) → readLoop ok chunks st = some st1 →
      st1.count ≤ st1.capacity ∧ 1048576 ≤ st1.capacity := by
  induction chunks with
  | nil =>
    intro st st1 h1 h2 _ h
    simp only [readLoop] at h
    have := Option.some.inj h
    subst this
    exact ⟨h1, h2⟩
  | cons chunk rest ih =>
    intro st st1 h1 h2 hsize h
    by_cases hc : chunk.length = 0
    · simp only [readLoop, hc, if_true] at h
      have := Option.some.inj h
      subst this
      exact ⟨h1, h2⟩
    · simp only [readLoop, hc, if_false] at h
      cases hs : readStep ok st chunk with
      | none => simp [hs] at h
      | some st2 =>
        simp only [hs] at h
        obtain ⟨-, hcount, hcap⟩ := readStep_spec ok st st2 chunk hs
        have h4096 := hsize chunk (List.mem_cons_self _ _)
        have hcap2 : st2.count ≤ st2.capacity ∧ 1048576 ≤ st2.capacity := by
          rw [hcount, hcap]
          unfold capacityAtCopy
          split <;> omega
        exact ih st2 st1 hcap2.1 hcap2.2 (fun c hcm => hsize c (List.mem_cons_of_mem _ hcm)) h

/-- Whenever `LoadAudioDataFFmpeg` returns a populated buffer, its samples are exactly
the concatenation, in order, of the chunks read from the decoder stream up to its end;
the `unsigned int` field `sampleCount` receives the `size_t` count of floats read, so
it equals that count whenever fewer than `2^32` floats were read; an iteration of the
loop, growing or not, keeps the floats already stored, in order, and appends the new
chunk. -/
theorem LoadAudioDataFFmpeg_concatenates (run : DecoderRun)
    (h : (LoadAudioDataFFmpeg run).samples.nonNull = true) :
    (LoadAudioDataFFmpeg run).samples = Ptr.live (decodedStream run.chunks) ∧
    (LoadAudioDataFFmpeg run).sampleCount = (decodedStream run.chunks).length % 2 ^ 32 ∧
    ((decodedStream run.chunks).length < 2 ^ 32 →
      (LoadAudioDataFFmpeg run).sampleCount = (decodedStream run.chunks).length) ∧
    (∀ (st st1 : ReadState) (chunk : List Sample),
      readStep run.reallocOk st chunk = some st1 → st1.data = st.data ++ chunk) := by
  have hstep : ∀ (st st1 : ReadState) (chunk : List Sample),
      readStep run.reallocOk st chunk = some st1 → st1.data = st.data ++ chunk :=
    fun st st1 chunk hs => (readStep_spec _ st st1 chunk hs).1
  rcases LoadAudioDataFFmpeg_shape run with h0 | ⟨st1, hloop, heq⟩
  · rw [h0] at h; simp [AudioBuffer.zero, Ptr.nonNull] at h
  · obtain ⟨hd, hc⟩ := readLoop_data _ _ _ _ hloop
    simp only [ReadState.init, List.nil_append, Nat.zero_add] at hd hc
    rw [heq]
    refine ⟨by rw [hd], ?_, ?_, hstep⟩
    · show toUInt32 st1.count = _
      rw [hc]; rfl
    · intro hlt
      show toUInt32 st1.count = _
      rw [hc]
      exact Nat.mod_eq_of_lt hlt

theorem LoadAudioDataFFmpeg_concatenates_witness :
    (LoadAudioDataFFmpeg (goodRun [[11, 12], [13, 14]])).samples.nonNull = true ∧
    (LoadAudioDataFFmpeg (goodRun [[11, 12], [13, 14]])).samples = Ptr.live [11, 12, 13, 14] ∧
    (LoadAudioDataFFmpeg (goodRun [[11, 12], [13, 14]])).sampleCount = 4 :=
  ⟨by decide,
    (LoadAudioDataFFmpeg_concatenates (goodRun [[11, 12], [13, 14]]) (by decide)).1,
    (LoadAudioDataFFmpeg_concatenates (goodRun [[11, 12], [13, 14]]) (by decide)).2.2.1
      (by decide)⟩

/-- Claim C18, where the code departs from it: for a decoder stream of `2^32` floats
the load succeeds (samples non-null) and `sampleCount` is 0, not the number of floats
read, which is what the claim and the comment `Total float count` on the field in
`audio_loader.h` give; the `size_t` count is stored into an `unsigned int`. -/
theorem LoadAudioDataFFmpeg_sampleCount_wraps :
    (LoadAudioDataFFmpeg hugeRun).samples.nonNull = true ∧
    (decodedStream hugeRun.chunks).length = 2 ^ 32 ∧
    (LoadAudioDataFFmpeg hugeRun).sampleCount = 0 := by
  have hlen : (decodedStream hugeRun.chunks).length = 2 ^ 32 := by
    have h := decodedStream_replicate_length (2 ^ 20) (List.replicate 4096 0)
      (by rw [List.length_replicate]; decide)
    rw [List.length_replicate] at h
    exact h
  refine ⟨LoadAudioDataFFmpeg_hugeRun.1, hlen, ?_⟩
  rw [LoadAudioDataFFmpeg_eq hugeRun ⟨by decide, rfl⟩ ⟨rfl, fun _ => rfl⟩, hlen]
  decide

/-- Claim C20: in every state the read loop reaches from its start, with no `fread`
returning more than 4096 floats, `count + samplesRead <= capacity` holds at the
`memcpy` of the next chunk, where the capacity is the one in force there (doubled at
most once in the iteration); the state after the iteration has that capacity and again
`count <= capacity`. -/
theorem memcpy_within_capacity (ok : Nat → Bool) (before : List (List Sample))
    (chunk : List Sample) (st : ReadState)
    (hsize : ∀ c ∈ before, c.length ≤ 4096) (hchunk : chunk.length ≤ 4096)
    (hreach : readLoop ok before ReadState.init = some st) :
    st.count + chunk.length ≤ capacityAtCopy st chunk.length ∧
    capacityAtCopy st chunk.length ≤ st.capacity * 2 ∧
    (∀ st1, readStep ok st chunk = some st1 →
      st1.capacity = capacityAtCopy st chunk.length ∧
      st1.count = st.count + chunk.length ∧ st1.count ≤ st1.capacity) := by
  obtain ⟨h1, h2⟩ := readLoop_capacity ok before ReadState.init st
    (by simp [ReadState.init]) (by simp [ReadState.init]) hsize hreach
  have hfit : st.count + chunk.length ≤ capacityAtCopy st chunk.length := by
    unfold capacityAtCopy
    split <;> omega
  refine ⟨hfit, ?_, ?_⟩
  · unfold capacityAtCopy
    split <;> omega
  · intro st1 hs
    obtain ⟨-, hcount, hcap⟩ := readStep_spec ok st st1 chunk hs
    exact ⟨hcap, hcount, by rw [hcount, hcap]; exact hfit⟩

theorem memcpy_within_capacity_witness :
    (∀ c ∈ [[11, 12], [13, 14]], c.length ≤ 4096) ∧ [15, 16, 17].length ≤ 4096 ∧
    readLoop (fun _ => true) [[11, 12], [13, 14]] ReadState.init =
      some { data := [11, 12, 13, 14], count := 4, capacity := 1048576 } ∧
    4 + 3 ≤ capacityAtCopy { data := [11, 12, 13, 14], count := 4, capacity := 1048576 } 3 :=
  ⟨by decide, by decide, by decide,
    (memcpy_within_capacity (fun _ => true) [[11, 12], [13, 14]] [15, 16, 17]
      { data := [11, 12, 13, 14], count := 4, capacity := 1048576 } (by decide) (by decide)
      (by decide)).1⟩

/-! ## The clip export -/

theorem fitsInt64_iff (i : Int) : fitsInt64 i = true ↔ -(2 : Int) ^ 63 ≤ i ∧ i < 2 ^ 63 := by
  simp [fitsInt64]

/-- The slice `saveClip` hands to `fwrite`, in terms of the two converted frame numbers. -/
theorem saveClip_eq {σ : Type} (st : PlayerState σ) (startTime endTime : ℚ)
    (data : List Sample) (c : Nat) (hca : st.currentAudio = true)
    (hd : st.localAudioBuffer.samples = Ptr.live data)
    (hch : st.localAudioBuffer.channels = (c : Int))
    (hblk : st.localAudioBuffer.frameCount * c ≤ data.length)
    (hs : fitsInt64 (truncToZero (fmul startTime
      (roundF32 (st.localAudioBuffer.sampleRate : ℚ)))) = true)
    (he : fitsInt64 (truncToZero (fmul endTime
      (roundF32 (st.localAudioBuffer.sampleRate : ℚ)))) = true)
    (hdiff : fitsInt64
      (min (truncToZero (fmul endTime (roundF32 (st.localAudioBuffer.sampleRate : ℚ))))
          (st.localAudioBuffer.frameCount : Int) -
        max (truncToZero (fmul startTime (roundF32 (st.localAudioBuffer.sampleRate : ℚ))))
          0) = true) :
    saveClip startTime endTime st =
      some (frameSlice data c (clipFramesF32 startTime endTime st.localAudioBuffer)) := by
  unfold saveClip GetTrackBuffer clipFramesF32 frameSlice clamp
  simp only [hca, if_true, hs, he, Bool.not_true, Bool.or_self, Bool.false_eq_true, if_false]
  generalize truncToZero (fmul startTime (roundF32 (st.localAudioBuffer.sampleRate : ℚ))) = s0
    at hs he hdiff ⊢
  generalize truncToZero (fmul endTime (roundF32 (st.localAudioBuffer.sampleRate : ℚ))) = e0
    at hs he hdiff ⊢
  generalize st.localAudioBuffer.frameCount = fc at hblk hdiff ⊢
  rw [fitsInt64_iff] at hdiff
  have hfit : fitsInt64 ((if e0 > (fc : Int) then (fc : Int) else e0) -
      (if s0 < 0 then 0 else s0)) = true := by
    rw [fitsInt64_iff]
    split_ifs <;> omega
  simp only [hfit, Bool.not_true, Bool.false_eq_true, if_false, hch, hd]
  by_cases hpos : (if e0 > (fc : Int) then (fc : Int) else e0) - (if s0 < 0 then 0 else s0) > 0
  · simp only [hpos, if_true]
    have hcneg : ¬ ((c : Int) < 0) := by omega
    simp only [hcneg, if_false]
    obtain ⟨a, b, ha, hb, hab, hbfc, hsf, hef⟩ :
        ∃ a b : Nat, (if s0 < 0 then 0 else s0) = (a : Int) ∧
          (if e0 > (fc : Int) then (fc : Int) else e0) = (b : Int) ∧ a < b ∧ b ≤ fc ∧
          (max 0 (min s0 (fc : Int))).toNat = a ∧ (max 0 (min e0 (fc : Int))).toNat = b := by
      refine ⟨(if s0 < 0 then 0 else s0).toNat,
        (if e0 > (fc : Int) then (fc : Int) else e0).toNat, ?_, ?_, ?_, ?_, ?_, ?_⟩ <;>
        split_ifs at hpos ⊢ <;> omega
    rw [ha, hb, hsf, hef]
    have h1 : ((a : Int) * (c : Int)).toNat = a * c := by
      rw [← Nat.cast_mul]; exact Int.toNat_natCast _
    have h2 : (((b : Int) - (a : Int)) * (c : Int)).toNat = (b - a) * c := by
      rw [← Nat.cast_sub (le_of_lt hab), ← Nat.cast_mul]; exact Int.toNat_natCast _
    have h3 : a * c + (b - a) * c ≤ data.length := by
      have : a * c + (b - a) * c = b * c := by
        rw [← Nat.add_mul, Nat.add_sub_cancel' (le_of_lt hab)]
      rw [this]
      exact le_trans (Nat.mul_le_mul_right c hbfc) hblk
    simp only [h1, h2, readSamples, h3, if_true]
  · simp only [hpos, if_false]
    have hle : (max 0 (min e0 (fc : Int))).toNat - (max 0 (min s0 (fc : Int))).toNat = 0 := by
      split_ifs at hpos <;> omega
    rw [hle]
    simp

/-- Claim C14, as amended: for every float selection whose frame numbers and their
difference are in the `long long` range and every buffer whose live block holds
`frameCount` frames of `channels >= 0` floats, the
export step writes exactly the frames `[startFrame, endFrame)`, with `startFrame` and
`endFrame` the truncated binary32 product `fl(time * sampleRate)` clamped to
`[0, frameCount]`; it writes nothing when that range is empty or inverted, in particular
when `startTime = endTime`; and whenever the range is not empty it lies inside the
buffer, `0 <= startFrame < endFrame <= frameCount`. -/
theorem saveClip_writes_clamped_range {σ : Type} (st : PlayerState σ) (startTime endTime : ℚ)
    (data : List Sample) (c : Nat) (hca : st.currentAudio = true)
    (hd : st.localAudioBuffer.samples = Ptr.live data)
    (hch : st.localAudioBuffer.channels = (c : Int))
    (hblk : st.localAudioBuffer.frameCount * c ≤ data.length)
    (hs : fitsInt64 (truncToZero (fmul startTime
      (roundF32 (st.localAudioBuffer.sampleRate : ℚ)))) = true)
    (he : fitsInt64 (truncToZero (fmul endTime
      (roundF32 (st.localAudioBuffer.sampleRate : ℚ)))) = true)
    (hdiff : fitsInt64
      (min (truncToZero (fmul endTime (roundF32 (st.localAudioBuffer.sampleRate : ℚ))))
          (st.localAudioBuffer.frameCount : Int) -
        max (truncToZero (fmul startTime (roundF32 (st.localAudioBuffer.sampleRate : ℚ))))
          0) = true) :
    saveClip startTime endTime st =
      some (frameSlice data c (clipFramesF32 startTime endTime st.localAudioBuffer)) ∧
    ((clipFramesF32 startTime endTime st.localAudioBuffer).2 ≤
        (clipFramesF32 startTime endTime st.localAudioBuffer).1 →
      saveClip startTime endTime st = some []) ∧
    (startTime = endTime → saveClip startTime endTime st = some []) ∧
    (clipFramesF32 startTime endTime st.localAudioBuffer).1 ≤ st.localAudioBuffer.frameCount ∧
    (clipFramesF32 startTime endTime st.localAudioBuffer).2 ≤ st.localAudioBuffer.frameCount ∧
    ((clipFramesF32 startTime endTime st.localAudioBuffer).1 <
        (clipFramesF32 startTime endTime st.localAudioBuffer).2 →
      (frameSlice data c (clipFramesF32 startTime endTime st.localAudioBuffer)).length =
        ((clipFramesF32 startTime endTime st.localAudioBuffer).2 -
          (clipFramesF32 startTime endTime st.localAudioBuffer).1) * c) := by
  have heq := saveClip_eq st startTime endTime data c hca hd hch hblk hs he hdiff
  have hempty : (clipFramesF32 startTime endTime st.localAudioBuffer).2 ≤
      (clipFramesF32 startTime endTime st.localAudioBuffer).1 →
      saveClip startTime endTime st = some [] := by
    intro hle
    rw [heq]
    simp [frameSlice, Nat.sub_eq_zero_of_le hle]
  have hb1 : (clipFramesF32 startTime endTime st.localAudioBuffer).1 ≤
      st.localAudioBuffer.frameCount := by
    simp only [clipFramesF32, clamp]; omega
  have hb2 : (clipFramesF32 startTime endTime st.localAudioBuffer).2 ≤
      st.localAudioBuffer.frameCount := by
    simp only [clipFramesF32, clamp]; omega
  refine ⟨heq, hempty, ?_, hb1, hb2, ?_⟩
  · intro ht
    subst ht
    exact hempty (le_refl _)
  · intro hlt
    simp only [frameSlice, List.length_take, List.length_drop]
    have h1 : (clipFramesF32 startTime endTime st.localAudioBuffer).2 * c ≤ data.length :=
      le_trans (Nat.mul_le_mul_right c hb2) hblk
    have h2 : (clipFramesF32 startTime endTime st.localAudioBuffer).1 * c +
        ((clipFramesF32 startTime endTime st.localAudioBuffer).2 -
          (clipFramesF32 startTime endTime st.localAudioBuffer).1) * c =
        (clipFramesF32 startTime endTime st.localAudioBuffer).2 * c := by
      rw [← Nat.add_mul, Nat.add_sub_cancel' (le_of_lt hlt)]
    omega

/-- The sample rate 44100 converts to `float` exactly. -/
theorem roundF32_sampleRate : roundF32 (((44100 : Int) : ℚ)) = 44100 := by
  rw [Int.cast_ofNat,
    roundF32_eval 44100 15 11289600 (by norm_num) (by norm_num)
      (by norm_num [abs_of_pos]) (by norm_num [abs_of_pos]) (by norm_num) (by norm_num)]
  norm_num

/-- The float product `2 * 44100` is 88200. -/
theorem fmul_two_seconds : fmul 2 44100 = 88200 := by
  unfold fmul
  rw [roundF32_eval ((2 : ℚ) * 44100) 16 11289600 (by norm_num) (by norm_num)
    (by norm_num [abs_of_pos]) (by norm_num [abs_of_pos]) (by norm_num) (by norm_num)]
  norm_num

/-- The float nearest to `1 / 44100` is `12466118 / 2^39`, just below it; its float
product with 44100 rounds up to 1. -/
theorem fmul_one_frame : fmul (12466118 / 2 ^ 39) 44100 = 1 := by
  unfold fmul
  rw [roundF32_eval ((12466118 / 2 ^ 39 : ℚ) * 44100) (-1) 16777216 (by norm_num)
    (by norm_num) (by norm_num [abs_of_pos]) (by norm_num [abs_of_pos]) (by norm_num)
    (by norm_num)]
  norm_num

theorem truncToZero_two_seconds :
    truncToZero (fmul 2 (roundF32 (((44100 : Int) : ℚ)))) = 88200 := by
  rw [roundF32_sampleRate, fmul_two_seconds]
  norm_num [truncToZero]

theorem saveClip_writes_clamped_range_witness :
    loadedState.currentAudio = true ∧
    loadedState.localAudioBuffer.samples = Ptr.live [11, 12, 13, 14] ∧
    loadedState.localAudioBuffer.channels = ((2 : Nat) : Int) ∧
    loadedState.localAudioBuffer.frameCount * 2 ≤ [11, 12, 13, 14].length ∧
    fitsInt64 (truncToZero (fmul 2 (roundF32 (((44100 : Int) : ℚ))))) = true ∧
    saveClip 2 2 loadedState = some [] :=
  ⟨rfl, rfl, rfl, by decide, by rw [truncToZero_two_seconds]; decide,
    (saveClip_writes_clamped_range loadedState 2 2 [11, 12, 13, 14] 2 rfl rfl rfl (by decide)
      (by show fitsInt64 (truncToZero (fmul 2 (roundF32 (((44100 : Int) : ℚ))))) = true
          rw [truncToZero_two_seconds]; decide)
      (by show fitsInt64 (truncToZero (fmul 2 (roundF32 (((44100 : Int) : ℚ))))) = true
          rw [truncToZero_two_seconds]; decide)
      (by show fitsInt64
            (min (truncToZero (fmul 2 (roundF32 (((44100 : Int) : ℚ))))) ((2 : Nat) : Int) -
              max (truncToZero (fmul 2 (roundF32 (((44100 : Int) : ℚ))))) 0) = true
          rw [truncToZero_two_seconds]; decide)).2.2.1 rfl⟩

/-- Claim C14 fails as stated: for the selection from 0 s to the float nearest
`1 / 44100` s (`12466118 / 2^39`, just below it) on the two-frame track, the exact
product `time * sampleRate` is below 1, so the range `[trunc, trunc)` of the claim is
`[0, 0)` and holds no frame, while the export writes frame 0 (floats 11 12): the float
product rounds up to 1.0 before it is truncated. -/
theorem saveClip_rounds_product :
    clipFrames 0 (12466118 / 2 ^ 39) loadedState.localAudioBuffer = (0, 0) ∧
    frameSlice [11, 12, 13, 14] 2 (clipFrames 0 (12466118 / 2 ^ 39)
      loadedState.localAudioBuffer) = [] ∧
    saveClip 0 (12466118 / 2 ^ 39) loadedState = some [11, 12] := by
  have hx : clipFrames 0 (12466118 / 2 ^ 39) loadedState.localAudioBuffer = (0, 0) := by
    have h0 : truncToZero ((0 : ℚ) * (((44100 : Int) : ℚ))) = 0 := by norm_num [truncToZero]
    have h1 : truncToZero ((12466118 / 2 ^ 39 : ℚ) * (((44100 : Int) : ℚ))) = 0 := by
      norm_num [truncToZero]
      rfl
    show ((clamp (truncToZero ((0 : ℚ) * (((44100 : Int) : ℚ)))) 0 ((2 : Nat) : Int)).toNat,
      (clamp (truncToZero ((12466118 / 2 ^ 39 : ℚ) * (((44100 : Int) : ℚ)))) 0
        ((2 : Nat) : Int)).toNat) = (0, 0)
    rw [h0, h1]
    decide
  have h0 : truncToZero (fmul 0 (roundF32 (((44100 : Int) : ℚ)))) = 0 := by
    rw [fmul_zero_left, truncToZero_zero]
  have h1 : truncToZero (fmul (12466118 / 2 ^ 39) (roundF32 (((44100 : Int) : ℚ)))) = 1 := by
    rw [roundF32_sampleRate, fmul_one_frame]
    norm_num [truncToZero]
  have h := saveClip_eq loadedState 0 (12466118 / 2 ^ 39) [11, 12, 13, 14] 2 rfl rfl rfl
    (by decide)
    (by show fitsInt64 (truncToZero (fmul 0 (roundF32 (((44100 : Int) : ℚ))))) = true
        rw [h0]; decide)
    (by show fitsInt64 (truncToZero (fmul (12466118 / 2 ^ 39)
          (roundF32 (((44100 : Int) : ℚ))))) = true
        rw [h1]; decide)
    (by show fitsInt64 (min (truncToZero (fmul (12466118 / 2 ^ 39)
            (roundF32 (((44100 : Int) : ℚ))))) ((2 : Nat) : Int) -
          max (truncToZero (fmul 0 (roundF32 (((44100 : Int) : ℚ))))) 0) = true
        rw [h0, h1]; decide)
  have hc : clipFramesF32 0 (12466118 / 2 ^ 39) loadedState.localAudioBuffer = (0, 1) := by
    show ((clamp (truncToZero (fmul 0 (roundF32 (((44100 : Int) : ℚ))))) 0
        ((2 : Nat) : Int)).toNat,
      (clamp (truncToZero (fmul (12466118 / 2 ^ 39) (roundF32 (((44100 : Int) : ℚ))))) 0
        ((2 : Nat) : Int)).toNat) = (0, 1)
    rw [h0, h1]
    decide
  refine ⟨hx, ?_, ?_⟩
  · rw [hx]; decide
  · rw [h, hc]; decide

/-! ## Reaching the end of the track -/

/-- One callback in a playing state whose cursor has reached `frameCount`, with a
drained engine and `0 < frames < 2^30`: nothing is fed, the block handed back is
`frames` frames of silence, playing stops and the cursor is set to 0. -/
theorem AudioInputCallback_at_end {σ : Type} (api : SonicApi σ) (output : Nat → Sample)
    (frames : Nat) (st : PlayerState σ) (e : σ) (hN0 : 0 < frames) (hN : frames < 2 ^ 30)
    (hs : st.silent = false) (hts : st.timeStretcher = Ptr.live e)
    (hend : st.localAudioBuffer.frameCount ≤ st.currentFrameIndex)
    (hdr : api.drained e frames) :
    feedLoop api st.localAudioBuffer.samples st.localAudioBuffer.frameCount (toInt32 frames)
        (st.localAudioBuffer.frameCount - st.currentFrameIndex) e st.currentFrameIndex =
      some { engine := e, cursor := st.currentFrameIndex, writes := [] } ∧
    AudioInputCallback api output frames st =
      some (definedOutput output frames [],
        { st with timeStretcher := Ptr.live (api.readFloatFromStream e frames).2
                  isPlaying := false, currentFrameIndex := 0 }) := by
  have hfuel : st.localAudioBuffer.frameCount - st.currentFrameIndex = 0 := by omega
  have hneed : toInt32 (frames : Int) = frames := toInt32_of_fits _ (by omega) (by omega)
  have hfeed : feedLoop api st.localAudioBuffer.samples st.localAudioBuffer.frameCount
      (frames : Int) 0 e st.currentFrameIndex =
      some { engine := e, cursor := st.currentFrameIndex, writes := [] } := rfl
  obtain ⟨-, hrd, hav⟩ := hdr
  refine ⟨by rw [hfuel, hneed]; exact hfeed, ?_⟩
  unfold PlayerState.silent at hs
  simp only [AudioInputCallback, hs, hts, hneed, hfuel, hfeed, Bool.false_eq_true, if_false]
  have hlt : ((0 : Nat) : Int) < (frames : Int) := by omega
  have hf1 : fitsInt32 (((0 : Nat) : Int) * 2) = true := by decide
  have hf2 : fitsInt32 (((frames : Int) - ((0 : Nat) : Int)) * 2) = true := by
    rw [fitsInt32_iff]; omega
  have ht1 : (((0 : Nat) : Int) * 2).toNat = 0 * 2 := by decide
  have ht2 : (((frames : Int) - ((0 : Nat) : Int)) * 2).toNat = (frames - 0) * 2 := by omega
  have hout := memsetZero_storeAt0 output [] 0 frames rfl (Nat.zero_le _)
  simp only [hrd, hav, List.length_nil, hlt, hf1, hf2, ht1, ht2, hout, hend, interleave,
    if_true, Bool.and_self, and_self, ge_iff_le]

theorem fifoApi_drained_nil (maxFrames : Int) : fifoApi.drained [] maxFrames := by
  simp [SonicApi.drained, fifoApi]

theorem fifoApi_readTakes : fifoApi.readTakes := by
  intro q maxFrames h0
  simp only [fifoApi, List.length_take, List.length_drop]
  omega

theorem readBounded_of_readTakes {σ : Type} (api : SonicApi σ) (hq : api.readTakes) :
    api.readBounded := by
  intro e maxFrames h0
  obtain ⟨-, h2, -⟩ := hq e maxFrames h0
  rw [h2]
  exact min_le_right _ _

/-- A feed loop that leaves the cursor where it was has written nothing: the engine is
the one it started with. -/
theorem feedLoop_no_progress {σ : Type} (api : SonicApi σ) (data : List Sample)
    (frameCount : Nat) (samplesNeeded : Int) (hlen : frameCount * 2 ≤ data.length)
    (fuel : Nat) (e : σ) (cursor : Nat) (fed : FeedResult σ)
    (h : feedLoop api (Ptr.live data) frameCount samplesNeeded fuel e cursor = some fed)
    (hc : fed.cursor = cursor) : fed.engine = e := by
  cases fuel with
  | zero =>
    simp only [feedLoop] at h
    have := Option.some.inj h
    subst this
    rfl
  | succ k =>
    unfold feedLoop at h
    by_cases havail : api.samplesAvailable e < samplesNeeded
    · by_cases hend : cursor ≥ frameCount
      · simp only [havail, hend, if_true] at h
        have := Option.some.inj h
        subst this
        rfl
      · simp only [havail, hend, if_true, if_false] at h
        have hpos : 1 ≤ (if cursor + 1024 > frameCount then frameCount - cursor else 1024) := by
          split <;> omega
        have hchunk : cursor + (if cursor + 1024 > frameCount then frameCount - cursor else 1024)
            ≤ frameCount := by split <;> omega
        generalize (if cursor + 1024 > frameCount then frameCount - cursor else 1024) = chunk
          at hpos hchunk h
        have hread : readSamples (Ptr.live data) (cursor * CHANNELS) (chunk * CHANNELS) =
            some ((data.drop (cursor * CHANNELS)).take (chunk * CHANNELS)) := by
          have : cursor * CHANNELS + chunk * CHANNELS ≤ data.length := by
            simp only [CHANNELS]; omega
          simp [readSamples, this]
        obtain ⟨r, hr, hmono, -, -⟩ := feedLoop_total api data frameCount samplesNeeded hlen k
          (api.writeFloatToStream e ((data.drop (cursor * CHANNELS)).take (chunk * CHANNELS))
            chunk) (cursor + chunk)
        simp only [hread, hr] at h
        have := Option.some.inj h
        subst this
        simp only at hc
        omega
    · simp only [havail, if_false] at h
      have := Option.some.inj h
      subst this
      rfl

/-- In a sound state every write of the callback's feed loop has at least one frame and
stays inside the track. -/
theorem feedWrites_in_bounds {σ : Type} (api : SonicApi σ) (frames : Nat)
    (st : PlayerState σ) (hs : st.sound) :
    ∀ w ∈ feedWrites api frames st, 1 ≤ w.2 ∧
      (w.1 + w.2) * 2 ≤ st.localAudioBuffer.frameCount * 2 := by
  intro w hw
  unfold feedWrites at hw
  by_cases hsil : st.silent = true
  · simp [hsil] at hw
  · have hsil2 : st.silent = false := by simpa using hsil
    have hnn : st.localAudioBuffer.samples.nonNull = true := by
      unfold PlayerState.silent at hsil2
      simp only [Bool.or_eq_false_iff, Bool.not_eq_false'] at hsil2
      simpa using hsil2.2
    obtain ⟨data, hd⟩ := sound_of_live st hs hnn
    obtain ⟨⟨e, hts⟩, -, -, hblk⟩ := hs
    obtain ⟨fed, hfed, hchain, -⟩ := feedLoop_chain api data st.localAudioBuffer.frameCount
      (toInt32 frames) (hblk data hd).1
      (st.localAudioBuffer.frameCount - st.currentFrameIndex) e st.currentFrameIndex
    simp only [hsil2, hts, hd, hfed, Bool.false_eq_true, if_false] at hw
    obtain ⟨hmem, -⟩ := feedChain_mem _ _ _ _ hchain
    obtain ⟨-, h1, -, h2⟩ := hmem w hw
    exact ⟨h1, by omega⟩

/-- One callback in a sound playing state, with a queue-like engine and
`0 < frames < 2^30`: it completes, keeps the state sound and the buffer in place, and
either stops playback or leaves a playing state that is closer to the end: the cursor
has moved forward, or it has not and the engine holds fewer frames. -/
theorem AudioInputCallback_progress {σ : Type} (api : SonicApi σ) (hq : api.readTakes)
    (output : Nat → Sample) (frames : Nat) (hN0 : 0 < frames) (hN : frames < 2 ^ 30)
    (st : PlayerState σ) (e : σ) (hs : st.sound) (hsil : st.silent = false)
    (hts : st.timeStretcher = Ptr.live e) :
    ∃ st1, (AudioInputCallback api output frames st).map Prod.snd = some st1 ∧ st1.sound ∧
      st1.localAudioBuffer = st.localAudioBuffer ∧
      (st1.isPlaying = false ∨
        (st1.silent = false ∧ ∃ e1, st1.timeStretcher = Ptr.live e1 ∧
          (st1.localAudioBuffer.frameCount - st1.currentFrameIndex <
              st.localAudioBuffer.frameCount - st.currentFrameIndex ∨
            (st1.localAudioBuffer.frameCount - st1.currentFrameIndex =
                st.localAudioBuffer.frameCount - st.currentFrameIndex ∧
              (api.samplesAvailable e1).toNat < (api.samplesAvailable e).toNat)))) := by
  have hnn : st.localAudioBuffer.samples.nonNull = true := by
    unfold PlayerState.silent at hsil
    simp only [Bool.or_eq_false_iff, Bool.not_eq_false'] at hsil
    simpa using hsil.2
  obtain ⟨data, hd⟩ := sound_of_live st hs hnn
  obtain ⟨-, hnd, hfc, hblk⟩ := hs
  obtain ⟨hlen, hcur⟩ := hblk data hd
  unfold cursorInRange at hcur
  obtain ⟨fed, hfed, -, hcb⟩ := AudioInputCallback_playing api
    (readBounded_of_readTakes api hq) output frames st e data hN hsil hts hd hlen
  obtain ⟨fed2, hfed2, hmono, hle, hexit⟩ := feedLoop_total api data
    st.localAudioBuffer.frameCount (frames : Int) hlen
    (st.localAudioBuffer.frameCount - st.currentFrameIndex) e st.currentFrameIndex
  have hfeq : fed2 = fed := by rw [hfed] at hfed2; exact (Option.some.inj hfed2).symm
  subst hfeq
  have hle2 := hle hcur
  obtain ⟨hav0, hlenq, havq⟩ := hq fed2.engine frames (by omega)
  rw [hcb]
  simp only [Option.map_some']
  have hplay : st.isPlaying = true := by
    unfold PlayerState.silent at hsil
    simp only [Bool.or_eq_false_iff, Bool.not_eq_false'] at hsil
    exact hsil.1.1
  have hca : st.currentAudio = true := by
    unfold PlayerState.silent at hsil
    simp only [Bool.or_eq_false_iff, Bool.not_eq_false'] at hsil
    exact hsil.1.2
  by_cases hend : (api.readFloatFromStream fed2.engine frames).1.length < frames ∧
      st.localAudioBuffer.frameCount ≤ fed2.cursor ∧
      api.samplesAvailable (api.readFloatFromStream fed2.engine frames).2 = 0
  · rw [if_pos hend]
    exact ⟨_, rfl, ⟨⟨_, rfl⟩, hnd, hfc, fun d hd2 => ⟨(hblk d hd2).1, Nat.zero_le _⟩⟩, rfl,
      Or.inl rfl⟩
  · rw [if_neg hend]
    refine ⟨_, rfl, ⟨⟨_, rfl⟩, hnd, hfc, fun d hd2 => ⟨(hblk d hd2).1, hle2⟩⟩, rfl,
      Or.inr ⟨?_, _, rfl, ?_⟩⟩
    · simp [PlayerState.silent, hplay, hca, hnn]
    · show st.localAudioBuffer.frameCount - fed2.cursor <
          st.localAudioBuffer.frameCount - st.currentFrameIndex ∨
        (st.localAudioBuffer.frameCount - fed2.cursor =
            st.localAudioBuffer.frameCount - st.currentFrameIndex ∧
          (api.samplesAvailable (api.readFloatFromStream fed2.engine frames).2).toNat <
            (api.samplesAvailable e).toNat)
      by_cases hmove : fed2.cursor = st.currentFrameIndex
      · have heng : fed2.engine = e := feedLoop_no_progress api data
          st.localAudioBuffer.frameCount (frames : Int) hlen _ e st.currentFrameIndex fed2
          hfed hmove
        rw [heng] at hlenq havq hexit hend hav0 ⊢
        right
        refine ⟨by rw [hmove], ?_⟩
        by_cases hfull : (frames : Int) ≤ api.samplesAvailable e
        · rw [havq, min_eq_right hfull]
          omega
        · exfalso
          apply hend
          have hlt : api.samplesAvailable e < frames := by omega
          rw [min_eq_left (le_of_lt hlt)] at hlenq havq
          exact ⟨by omega, hexit (le_refl _) hlt, by rw [havq]; omega⟩
      · left
        omega

theorem runOps_callback_succ {σ : Type} (api : SonicApi σ) (output : Nat → Sample)
    (frames k : Nat) (st st1 st2 : PlayerState σ)
    (h1 : (AudioInputCallback api output frames st).map Prod.snd = some st1)
    (h2 : runOps api (List.replicate k (Op.callback output frames)) st1 = some st2) :
    runOps api (List.replicate (k + 1) (Op.callback output frames)) st = some st2 := by
  simp only [List.replicate_succ, runOps, Op.apply, h1, Option.some_bind, h2]

/-- Repeating the callback on a sound state never fails, keeps the state sound and
leaves the buffer in place. -/
theorem runCallbacks_sound {σ : Type} (api : SonicApi σ) (hread : api.readBounded)
    (output : Nat → Sample) (frames : Nat) (hN : frames < 2 ^ 30) :
    ∀ (k : Nat) (st : PlayerState σ), st.sound →
      ∃ st1, runOps api (List.replicate k (Op.callback output frames)) st = some st1 ∧
        st1.sound ∧ st1.localAudioBuffer = st.localAudioBuffer := by
  intro k
  induction k with
  | zero => intro st hs; exact ⟨st, rfl, hs, rfl⟩
  | succ k ih =>
    intro st hs
    have hstep : ∃ st1, (AudioInputCallback api output frames st).map Prod.snd = some st1 ∧
        st1.sound ∧ st1.localAudioBuffer = st.localAudioBuffer := by
      by_cases hsil : st.silent = true
      · exact ⟨st, by rw [AudioInputCallback_silent api output frames st hsil]; rfl, hs, rfl⟩
      · have hsil2 : st.silent = false := by simpa using hsil
        have hnn : st.localAudioBuffer.samples.nonNull = true := by
          unfold PlayerState.silent at hsil2
          simp only [Bool.or_eq_false_iff, Bool.not_eq_false'] at hsil2
          simpa using hsil2.2
        obtain ⟨data, hd⟩ := sound_of_live st hs hnn
        obtain ⟨e, hts⟩ := hs.1
        obtain ⟨fed, -, -, hcb⟩ := AudioInputCallback_playing api hread output frames st e
          data hN hsil2 hts hd (hs.2.2.2 data hd).1
        obtain ⟨r, hr, hrs⟩ := AudioInputCallback_sound api hread output frames st hs hN
        rw [hcb] at hr
        have hreq := Option.some.inj hr
        refine ⟨r.2, by rw [hcb, hreq]; rfl, hrs, ?_⟩
        rw [← hreq]
        simp only
        split <;> rfl
    obtain ⟨st1, h1, hs1, hb1⟩ := hstep
    obtain ⟨st2, h2, hs2, hb2⟩ := ih st1 hs1
    exact ⟨st2, runOps_callback_succ api output frames k st st1 st2 h1 h2, hs2,
      by rw [hb2, hb1]⟩

/-- From a sound playing state, with a queue-like engine and `0 < frames < 2^30`,
repeating the callback stops playback after finitely many calls. -/
theorem playing_drains {σ : Type} (api : SonicApi σ) (hq : api.readTakes)
    (output : Nat → Sample) (frames : Nat) (hN0 : 0 < frames) (hN : frames < 2 ^ 30) :
    ∀ (a b : Nat) (st : PlayerState σ) (e : σ), st.sound → st.silent = false →
      st.timeStretcher = Ptr.live e →
      st.localAudioBuffer.frameCount - st.currentFrameIndex ≤ a →
      (api.samplesAvailable e).toNat ≤ b →
      ∃ k st1, runOps api (List.replicate k (Op.callback output frames)) st = some st1 ∧
        st1.isPlaying = false := by
  intro a
  induction a with
  | zero =>
    intro b
    induction b with
    | zero =>
      intro st e hs hsil hts ha hb
      obtain ⟨st1, h1, -, -, hstop | ⟨-, e1, -, hlt | ⟨-, hlt⟩⟩⟩ :=
        AudioInputCallback_progress api hq output frames hN0 hN st e hs hsil hts
      · exact ⟨1, st1, runOps_callback_succ api output frames 0 st st1 st1 h1 rfl, hstop⟩
      · omega
      · omega
    | succ b ihb =>
      intro st e hs hsil hts ha hb
      obtain ⟨st1, h1, hs1, hb1, hstop | ⟨hsil1, e1, hts1, hlt | ⟨heq, hlt⟩⟩⟩ :=
        AudioInputCallback_progress api hq output frames hN0 hN st e hs hsil hts
      · exact ⟨1, st1, runOps_callback_succ api output frames 0 st st1 st1 h1 rfl, hstop⟩
      · omega
      · obtain ⟨k, st2, h2, hstop⟩ := ihb st1 e1 hs1 hsil1 hts1 (by omega) (by omega)
        exact ⟨k + 1, st2, runOps_callback_succ api output frames k st st1 st2 h1 h2, hstop⟩
  | succ a iha =>
    intro b
    induction b with
    | zero =>
      intro st e hs hsil hts ha hb
      obtain ⟨st1, h1, hs1, hb1, hstop | ⟨hsil1, e1, hts1, hlt | ⟨-, hlt⟩⟩⟩ :=
        AudioInputCallback_progress api hq output frames hN0 hN st e hs hsil hts
      · exact ⟨1, st1, runOps_callback_succ api output frames 0 st st1 st1 h1 rfl, hstop⟩
      · obtain ⟨k, st2, h2, hstop⟩ := iha (api.samplesAvailable e1).toNat st1 e1 hs1 hsil1
          hts1 (by omega) (le_refl _)
        exact ⟨k + 1, st2, runOps_callback_succ api output frames k st st1 st2 h1 h2, hstop⟩
      · omega
    | succ b ihb =>
      intro st e hs hsil hts ha hb
      obtain ⟨st1, h1, hs1, hb1, hstop | ⟨hsil1, e1, hts1, hlt | ⟨heq, hlt⟩⟩⟩ :=
        AudioInputCallback_progress api hq output frames hN0 hN st e hs hsil hts
      · exact ⟨1, st1, runOps_callback_succ api output frames 0 st st1 st1 h1 rfl, hstop⟩
      · obtain ⟨k, st2, h2, hstop⟩ := iha (api.samplesAvailable e1).toNat st1 e1 hs1 hsil1
          hts1 (by omega) (le_refl _)
        exact ⟨k + 1, st2, runOps_callback_succ api output frames k st st1 st2 h1 h2, hstop⟩
      · obtain ⟨k, st2, h2, hstop⟩ := ihb st1 e1 hs1 hsil1 hts1 (by omega) (by omega)
        exact ⟨k + 1, st2, runOps_callback_succ api output frames k st st1 st2 h1 h2, hstop⟩

/-- A successful load into a player with a live engine leaves a sound state that
references the decoded buffer and is not playing. -/
theorem LoadTrack_loaded_sound {σ : Type} (api : SonicApi σ) (run : DecoderRun)
    (st0 : PlayerState σ) (e0 : σ) (hts : st0.timeStretcher = Ptr.live e0)
    (hbuf : st0.localAudioBuffer.samples ≠ Ptr.dangling)
    (hdec : (LoadAudioDataFFmpeg run).samples.nonNull = true)
    (hfc : (LoadAudioDataFFmpeg run).frameCount < 2 ^ 31) :
    ∃ st1, LoadTrack api run st0 = some (true, st1) ∧ st1.sound ∧ st1.currentAudio = true ∧
      st1.localAudioBuffer = LoadAudioDataFFmpeg run := by
  refine ⟨_, LoadTrack_of_nonNull api run st0 (by rw [hts]; exact fun h => nomatch h) hbuf hdec,
    ⟨⟨api.setSampleRate e0 44100, by simp [hts, resetHandle]⟩, ?_, hfc, ?_⟩, rfl, rfl⟩
  · intro hdang
    rcases LoadAudioDataFFmpeg_cases run with h0 | ⟨data, hd⟩
    · have h1 : (LoadAudioDataFFmpeg run).samples = Ptr.dangling := hdang
      rw [h0] at h1
      simp [AudioBuffer.zero] at h1
    · have h1 : (LoadAudioDataFFmpeg run).samples = Ptr.dangling := hdang
      rw [hd] at h1
      cases h1
  · intro data hd
    exact ⟨LoadAudioDataFFmpeg_block run data hd, Nat.zero_le _⟩

/-- A seek in a sound state with a track referenced keeps the state sound, the track
referenced and the buffer in place. -/
theorem SeekTrack_loaded_sound {σ : Type} (api : SonicApi σ) (t : ℚ) (st : PlayerState σ)
    (hs : st.sound) (hca : st.currentAudio = true)
    (hfit : fitsInt32 (truncToZero (fmul t 44100)) = true) :
    ∃ st1, SeekTrack api t st = some st1 ∧ st1.sound ∧ st1.currentAudio = true ∧
      st1.localAudioBuffer = st.localAudioBuffer := by
  obtain ⟨st1, h1, hs1⟩ := SeekTrack_sound api t st hs hfit
  obtain ⟨e, hts⟩ := hs.1
  have h2 := SeekTrack_eq api t st e hca hts hs.2.2.1 hfit
  rw [h2] at h1
  have h3 := Option.some.inj h1
  subst h3
  exact ⟨_, h2, hs1, hca, rfl⟩

/-- The call `PlayTrack` on a sound state whose track has samples gives a sound state
that plays the same buffer. -/
theorem PlayTrack_loaded_sound {σ : Type} (st : PlayerState σ) (hs : st.sound)
    (hca : st.currentAudio = true) (hnn : st.localAudioBuffer.samples.nonNull = true) :
    (PlayTrack st).sound ∧ (PlayTrack st).silent = false ∧
      (PlayTrack st).localAudioBuffer = st.localAudioBuffer ∧
      (PlayTrack st).isPlaying = true := by
  have hp : PlayTrack st = { st with isPlaying := true } := by
    simp [PlayTrack, hca, hnn]
  rw [hp]
  exact ⟨hs, by simp [PlayerState.silent, hca, hnn], rfl, rfl⟩

/-- Claim C13, as amended: for a track of `F < 2^31` frames, callbacks asking for
`0 < N < 2^30` frames and an engine that hands out its frames like a queue: after a
successful load into a player with a live engine (buffer pointer not already freed),
`SeekTrack(F / sampleRate)` (the float quotient `GetTrackDuration()`
returns, with a frame number that fits an `int`) and `PlayTrack`, any number `k` of
callback invocations completes with the buffer in place, every write `(c, n)` of the
feed loop of the invocation that follows (it passes floats `[c * 2, (c + n) * 2)` of the
block to the engine) lies inside `[0, F * 2)`, and after finitely many invocations
`isPlaying = false`.  In particular, from any playing state with
`cursorFrame = frameCount` and an empty engine (nothing available, nothing returned by
a read), one such callback feeds nothing, outputs `N` frames of silence and sets
`isPlaying = false`. -/
theorem end_of_track_round_trip {σ : Type} (api : SonicApi σ) (output : Nat → Sample)
    (frames : Nat) (hN0 : 0 < frames) (hN : frames < 2 ^ 30) :
    (∀ (run : DecoderRun) (st0 : PlayerState σ) (e0 : σ), api.readTakes →
      st0.timeStretcher = Ptr.live e0 → st0.localAudioBuffer.samples ≠ Ptr.dangling →
      (LoadAudioDataFFmpeg run).samples.nonNull = true →
      (LoadAudioDataFFmpeg run).frameCount < 2 ^ 31 →
      fitsInt32 (truncToZero (fmul
        (fdiv (roundF32 ((LoadAudioDataFFmpeg run).frameCount : ℚ)) 44100) 44100)) = true →
      ∃ st1 st2,
        LoadTrack api run st0 = some (true, st1) ∧
        GetTrackDuration st1 =
          fdiv (roundF32 ((LoadAudioDataFFmpeg run).frameCount : ℚ)) 44100 ∧
        SeekTrack api (GetTrackDuration st1) st1 = some st2 ∧
        (PlayTrack st2).isPlaying = true ∧
        (∀ k : Nat, ∃ st3,
          runOps api (List.replicate k (Op.callback output frames)) (PlayTrack st2) =
            some st3 ∧
          st3.localAudioBuffer = LoadAudioDataFFmpeg run ∧
          ∀ w ∈ feedWrites api frames st3, 1 ≤ w.2 ∧
            (w.1 + w.2) * 2 ≤ (LoadAudioDataFFmpeg run).frameCount * 2) ∧
        ∃ (k : Nat) (st3 : PlayerState σ),
          runOps api (List.replicate k (Op.callback output frames)) (PlayTrack st2) =
            some st3 ∧
          st3.isPlaying = false) ∧
    (∀ (st : PlayerState σ) (e : σ), st.silent = false → st.timeStretcher = Ptr.live e →
      st.currentFrameIndex = st.localAudioBuffer.frameCount → api.drained e frames →
      ∃ st1,
        feedLoop api st.localAudioBuffer.samples st.localAudioBuffer.frameCount
            (toInt32 frames) (st.localAudioBuffer.frameCount - st.currentFrameIndex) e
            st.currentFrameIndex =
          some { engine := e, cursor := st.currentFrameIndex, writes := [] } ∧
        AudioInputCallback api output frames st = some (definedOutput output frames [], st1) ∧
        st1.isPlaying = false) := by
  constructor
  · intro run st0 e0 hq hts hbuf hdec hfc hfit
    obtain ⟨st1, hload, hs1, hca1, hb1⟩ := LoadTrack_loaded_sound api run st0 e0 hts hbuf hdec hfc
    have hdur : GetTrackDuration st1 =
        fdiv (roundF32 ((LoadAudioDataFFmpeg run).frameCount : ℚ)) 44100 := by
      unfold GetTrackDuration
      simp only [hca1, hb1, Bool.not_true, Bool.false_eq_true, if_false]
    obtain ⟨st2, hseek, hs2, hca2, hb2⟩ := SeekTrack_loaded_sound api (GetTrackDuration st1) st1
      hs1 hca1 (by rw [hdur]; exact hfit)
    obtain ⟨hs3, hsil3, hb3, hplay3⟩ := PlayTrack_loaded_sound st2 hs2 hca2
      (by rw [hb2, hb1]; exact hdec)
    refine ⟨st1, st2, hload, hdur, hseek, hplay3, ?_, ?_⟩
    · intro k
      obtain ⟨st3, hrun, hs4, hb4⟩ := runCallbacks_sound api (readBounded_of_readTakes api hq)
        output frames hN k (PlayTrack st2) hs3
      have hbuf4 : st3.localAudioBuffer = LoadAudioDataFFmpeg run := by
        rw [hb4, hb3, hb2, hb1]
      refine ⟨st3, hrun, hbuf4, ?_⟩
      intro w hw
      have := feedWrites_in_bounds api frames st3 hs4 w hw
      rw [hbuf4] at this
      exact this
    · obtain ⟨e3, hts3⟩ := hs3.1
      exact playing_drains api hq output frames hN0 hN _ _ (PlayTrack st2) e3 hs3 hsil3 hts3
        (le_refl _) (le_refl _)
  · intro st e hs hts hcur hdr
    obtain ⟨h1, h2⟩ := AudioInputCallback_at_end api output frames st e hN0 hN hs hts
      (by omega) hdr
    exact ⟨_, h1, h2, rfl⟩

theorem end_of_track_round_trip_witness :
    (0 < 3) ∧ (3 < 2 ^ 30) ∧ fifoApi.readTakes ∧
    idleState.timeStretcher = Ptr.live [] ∧
    idleState.localAudioBuffer.samples ≠ Ptr.dangling ∧
    (LoadAudioDataFFmpeg (goodRun [[11, 12, 13, 14]])).samples.nonNull = true ∧
    (LoadAudioDataFFmpeg (goodRun [[11, 12, 13, 14]])).frameCount < 2 ^ 31 ∧
    fitsInt32 (truncToZero (fmul (fdiv (roundF32
      ((LoadAudioDataFFmpeg (goodRun [[11, 12, 13, 14]])).frameCount : ℚ)) 44100) 44100)) =
        true ∧
    endOfTrackState.silent = false ∧ fifoApi.drained [] 3 ∧
    (∃ st3, AudioInputCallback fifoApi staleOutput 3 endOfTrackState =
        some (definedOutput staleOutput 3 [], st3) ∧ st3.isPlaying = false) ∧
    ∃ st1 st2,
      LoadTrack fifoApi (goodRun [[11, 12, 13, 14]]) idleState = some (true, st1) ∧
      SeekTrack fifoApi (GetTrackDuration st1) st1 = some st2 ∧
      ∃ (k : Nat) (st3 : PlayerState (List (Sample × Sample))),
        runOps fifoApi (List.replicate k (Op.callback staleOutput 3)) (PlayTrack st2) =
          some st3 ∧
        st3.isPlaying = false := by
  have hfc : (LoadAudioDataFFmpeg (goodRun [[11, 12, 13, 14]])).frameCount = 2 := by decide
  have hfit : fitsInt32 (truncToZero (fmul (fdiv (roundF32
      ((LoadAudioDataFFmpeg (goodRun [[11, 12, 13, 14]])).frameCount : ℚ)) 44100) 44100)) =
        true := by
    rw [hfc, Nat.cast_ofNat, fdiv_two_frames, fmul_two_frames]
    have h2 : truncToZero 2 = 2 := truncToZero_intCast 2
    rw [h2]
    decide
  have h := end_of_track_round_trip fifoApi staleOutput 3 (by decide) (by decide)
  obtain ⟨st1, st2, h1, -, h2, -, -, h3⟩ :=
    h.1 (goodRun [[11, 12, 13, 14]]) idleState [] fifoApi_readTakes rfl (by decide)
      (by decide) (by decide) hfit
  obtain ⟨st4, -, h5, h6⟩ := h.2 endOfTrackState [] (by decide) rfl rfl (fifoApi_drained_nil 3)
  exact ⟨by decide, by decide, fifoApi_readTakes, rfl, by decide, by decide, by decide,
    hfit, by decide, fifoApi_drained_nil 3, ⟨st4, h5, h6⟩, st1, st2, h1, h2, h3⟩

/-- Seeking to the duration of a seven-frame track falls one frame short of the end:
the float product `fl(fl(7 / 44100) * 44100)` is below 7, so the cursor lands on
frame 6.  The first callback asking for one frame feeds that frame and leaves the
player playing with the cursor at 7; the second finds the engine drained and stops. -/
theorem seek_to_duration_seven_frames :
    ∃ st1 st2, LoadTrack fifoApi sevenFrameRun idleState = some (true, st1) ∧
      st1.localAudioBuffer.frameCount = 7 ∧
      GetTrackDuration st1 = 10907853 / 2 ^ 36 ∧
      SeekTrack fifoApi (GetTrackDuration st1) st1 = some st2 ∧
      st2.currentFrameIndex = 6 ∧
      feedWrites fifoApi 1 (PlayTrack st2) = [(6, 1)] ∧
      (runOps fifoApi [Op.callback staleOutput 1] (PlayTrack st2)).map
          (fun s => (s.isPlaying, s.currentFrameIndex)) = some (true, 7) ∧
      (runOps fifoApi [Op.callback staleOutput 1, Op.callback staleOutput 1]
          (PlayTrack st2)).map (fun s => (s.isPlaying, s.currentFrameIndex)) =
        some (false, 0) := by
  have hload := LoadTrack_of_nonNull fifoApi sevenFrameRun idleState (by decide) (by decide)
    (by decide)
  have hfc : (LoadAudioDataFFmpeg sevenFrameRun).frameCount = 7 := by decide
  have hdur : ∀ st : PlayerState (List (Sample × Sample)), st.currentAudio = true →
      st.localAudioBuffer = LoadAudioDataFFmpeg sevenFrameRun →
      GetTrackDuration st = 10907853 / 2 ^ 36 := by
    intro st h1 h2
    unfold GetTrackDuration
    simp only [h1, h2, hfc, Bool.not_true, Bool.false_eq_true, if_false, Nat.cast_ofNat]
    exact fdiv_seven_frames
  have htr : truncToZero (fmul (10907853 / 2 ^ 36) 44100) = 6 := by
    rw [← fdiv_seven_frames]; exact truncToZero_seven_frames
  refine ⟨_, { idleState with
      timeStretcher := Ptr.live []
      localAudioBuffer := LoadAudioDataFFmpeg sevenFrameRun
      currentAudio := true
      currentFrameIndex := 6
      isPlaying := false }, hload, hfc, hdur _ rfl rfl, ?_, rfl, by decide, by decide,
    by decide⟩
  rw [hdur _ rfl rfl,
    SeekTrack_eq fifoApi _ _ (fifoApi.setSampleRate [] 44100) rfl rfl (by rw [hfc]; decide)
      (by rw [htr]; decide),
    htr]
  rfl

/-- Claim C13 fails as stated: at the end of the two-frame track with an empty engine,
a callback asking for `N = 2^31 > 0` frames leaves `isPlaying = true` and the output
block untouched (the count, stored in an `int`, is negative), and so does the next one:
repeating it never stops playback. -/
theorem end_of_track_not_detected :
    endOfTrackState.currentFrameIndex = endOfTrackState.localAudioBuffer.frameCount ∧
    (AudioInputCallback fifoApi staleOutput (2 ^ 31) endOfTrackState).map
        (fun r => (r.2.isPlaying, r.2.currentFrameIndex, [r.1 0, r.1 1])) =
      some (true, 2, [7, 7]) ∧
    ((AudioInputCallback fifoApi staleOutput (2 ^ 31) endOfTrackState).bind
        (fun r => AudioInputCallback fifoApi r.1 (2 ^ 31) r.2)).map
        (fun r => (r.2.isPlaying, r.2.currentFrameIndex, [r.1 0, r.1 1])) =
      some (true, 2, [7, 7]) := by
  refine ⟨rfl, ?_, ?_⟩ <;> decide

/-! ## Operations outside the initialised lifetime -/

/-- With a track referenced and the engine handle `NULL`, `SeekTrack` passes the handle
to `sonicSetSampleRate` (or has already hit an undefined conversion): no defined result. -/
theorem SeekTrack_null_engine {σ : Type} (api : SonicApi σ) (t : ℚ) (st : PlayerState σ)
    (hca : st.currentAudio = true) (hts : st.timeStretcher = Ptr.null) :
    SeekTrack api t st = none := by
  unfold SeekTrack
  by_cases hfit : fitsInt32 (truncToZero (fmul t 44100)) = true
  · simp [hca, hfit, hts]
  · simp [hca, hfit]

/-- Claim C15, as amended: before `InitAudioPlayerSystem` or after
`CloseAudioPlayerSystem`, while no track is referenced (`currentAudio` is `NULL` and
nothing plays), `PlayTrack`, `PauseTrack`, `StopTrack`, `SeekTrack` and
`AudioInputCallback` (which zeroes the output block, all `N` frames of it for
`N < 2^31`) leave the playback state as it is and complete without using the engine
handle, whatever its value (`NULL`, live or destroyed).  `SetTrackSpeed` and
`LoadTrack` are not gated on initialisation: before `InitAudioPlayerSystem` (handle
`NULL`) `SetTrackSpeed` stores the clamped speed and `LoadTrack` (buffer pointer not
already freed) installs the track or empties the slot exactly as in an initialised
player; both test the handle and leave it `NULL`, skipping the engine call. -/
theorem operations_without_track {σ : Type} (api : SonicApi σ) (st : PlayerState σ)
    (hca : st.currentAudio = false) (hpl : st.isPlaying = false) :
    PlayTrack st = st ∧ PauseTrack st = st ∧ StopTrack api st = some st ∧
    (∀ t, SeekTrack api t st = some st) ∧
    (∀ output frames, AudioInputCallback api output frames st =
      some (memsetZero output 0 (toUInt32 (frames * CHANNELS)), st)) ∧
    (∀ output frames, frames < 2 ^ 31 →
      AudioInputCallback api output frames st = some (definedOutput output frames [], st)) ∧
    (st.timeStretcher = Ptr.null →
      (∀ s, SetTrackSpeed api s st = some { st with currentSpeed := clamp s (1 / 2) 3 }) ∧
      (∀ run, st.localAudioBuffer.samples ≠ Ptr.dangling →
        (LoadAudioDataFFmpeg run).samples.nonNull = true →
        LoadTrack api run st =
          some (true, { st with localAudioBuffer := LoadAudioDataFFmpeg run
                                currentAudio := true
                                currentFrameIndex := 0
                                isPlaying := false })) ∧
      (∀ run, st.localAudioBuffer.samples ≠ Ptr.dangling →
        (LoadAudioDataFFmpeg run).samples.nonNull = false →
        LoadTrack api run st =
          some (false, { st with localAudioBuffer := AudioBuffer.zero }))) := by
  have hpause : PauseTrack st = st := by
    cases st; simp only [PauseTrack] at *; simp [hpl]
  have hseek : ∀ t, SeekTrack api t st = some st := by
    intro t; simp [SeekTrack, hca]
  have hsil : st.silent = true := by simp [PlayerState.silent, hca]
  refine ⟨by simp [PlayTrack, hca], hpause, ?_, hseek, ?_, ?_, ?_⟩
  · have h := SeekTrack_paused api 0 st
    rw [hseek 0] at h
    simp only [StopTrack, h, Option.map_some', hpause]
  · intro output frames
    exact AudioInputCallback_silent api output frames st hsil
  · intro output frames hN
    have hu : toUInt32 (frames * CHANNELS) = frames * 2 := by
      simp only [toUInt32, CHANNELS]; omega
    rw [AudioInputCallback_silent api output frames st hsil, hu, memsetZero_silent]
  · intro hts
    refine ⟨?_, ?_, ?_⟩
    · intro s
      have hclamp : (if (if s < 1 / 2 then (1 / 2 : ℚ) else s) > 3 then (3 : ℚ)
          else (if s < 1 / 2 then (1 / 2 : ℚ) else s)) = clamp s (1 / 2) 3 := by
        unfold clamp
        by_cases h1 : s < 1 / 2
        · have h3 : ¬ ((1 / 2 : ℚ) > 3) := by norm_num
          have h4 : min s 3 = s := min_eq_left (by linarith)
          rw [if_pos h1, if_neg h3, h4, max_eq_left (le_of_lt h1)]
        · rw [if_neg h1]
          by_cases h2 : s > 3
          · rw [if_pos h2, min_eq_right (le_of_lt h2)]
            exact (max_eq_right (by norm_num)).symm
          · rw [if_neg h2, min_eq_left (not_lt.mp h2), max_eq_right (not_lt.mp h1)]
      simp only [SetTrackSpeed, hts, hclamp]
    · intro run hbuf hdec
      rw [LoadTrack_of_nonNull api run st (by rw [hts]; exact fun h => nomatch h) hbuf hdec]
      simp [hts, resetHandle]
    · intro run hbuf hdec
      exact LoadTrack_of_null api run st hbuf hdec

theorem operations_without_track_witness :
    CloseAudioPlayerSystem idleState = some closedState ∧
    closedState.timeStretcher = Ptr.dangling ∧
    closedState.currentAudio = false ∧ closedState.isPlaying = false ∧
    PlayTrack closedState = closedState ∧
    StopTrack fifoApi closedState = some closedState ∧
    SeekTrack fifoApi 1 closedState = some closedState ∧
    AudioInputCallback fifoApi staleOutput 3 closedState =
      some (definedOutput staleOutput 3 [], closedState) ∧
    (PlayerState.initial (List (Sample × Sample))).timeStretcher = Ptr.null ∧
    SetTrackSpeed fifoApi 5 (PlayerState.initial (List (Sample × Sample))) =
      some { PlayerState.initial (List (Sample × Sample)) with
        currentSpeed := clamp 5 (1 / 2) 3 } :=
  ⟨rfl, rfl, rfl, rfl,
    (operations_without_track fifoApi closedState rfl rfl).1,
    (operations_without_track fifoApi closedState rfl rfl).2.2.1,
    (operations_without_track fifoApi closedState rfl rfl).2.2.2.1 1,
    (operations_without_track fifoApi closedState rfl rfl).2.2.2.2.2.1 staleOutput 3
      (by decide),
    rfl,
    ((operations_without_track fifoApi (PlayerState.initial (List (Sample × Sample))) rfl
      rfl).2.2.2.2.2.2 rfl).1 5⟩

/-- Claim C15 fails as stated.  Before `InitAudioPlayerSystem`, `SetTrackSpeed(2)`
changes the speed from 1 to 2 and `LoadTrack` installs the two-frame track (neither is
a no-op), after which `SeekTrack` and a callback while playing have no defined result:
they pass the `NULL` handle to the engine.  After `CloseAudioPlayerSystem` with a track
loaded the handle and the block are destroyed but still non-null: `PlayTrack` sets
`isPlaying`, and `SetTrackSpeed`, a callback while playing and `LoadTrack` have no
defined result (destroyed engine used, block freed twice). -/
theorem operations_outside_lifetime :
    (PlayerState.initial (List (Sample × Sample))).currentSpeed = 1 ∧
    (SetTrackSpeed fifoApi 2 (PlayerState.initial (List (Sample × Sample)))).map
        (fun s => s.currentSpeed) = some 2 ∧
    (LoadTrack fifoApi (goodRun [[11, 12, 13, 14]])
        (PlayerState.initial (List (Sample × Sample)))).map
        (fun r => (r.1, r.2.currentAudio, r.2.localAudioBuffer.frameCount,
          r.2.timeStretcher.nonNull)) =
      some (true, true, 2, false) ∧
    ((LoadTrack fifoApi (goodRun [[11, 12, 13, 14]])
        (PlayerState.initial (List (Sample × Sample)))).bind
        (fun r => SeekTrack fifoApi 0 r.2)).isSome = false ∧
    ((LoadTrack fifoApi (goodRun [[11, 12, 13, 14]])
        (PlayerState.initial (List (Sample × Sample)))).bind
        (fun r => AudioInputCallback fifoApi staleOutput 1 (PlayTrack r.2))).isSome = false ∧
    (CloseAudioPlayerSystem loadedState).map
        (fun s => (s.timeStretcher, s.localAudioBuffer.samples, (PlayTrack s).isPlaying)) =
      some (Ptr.dangling, Ptr.dangling, true) ∧
    ((CloseAudioPlayerSystem loadedState).bind (SetTrackSpeed fifoApi 2)).isSome = false ∧
    ((CloseAudioPlayerSystem loadedState).bind
        (fun s => AudioInputCallback fifoApi staleOutput 1 (PlayTrack s))).isSome = false ∧
    ((CloseAudioPlayerSystem loadedState).bind
        (LoadTrack fifoApi (goodRun [[11, 12, 13, 14]]))).isSome = false := by
  refine ⟨rfl, ?_, by decide, ?_, by decide, by decide, ?_, by decide, by decide⟩
  · simp only [SetTrackSpeed, PlayerState.initial, Option.map_some']
    norm_num
  · rw [LoadTrack_of_nonNull fifoApi (goodRun [[11, 12, 13, 14]])
      (PlayerState.initial (List (Sample × Sample))) (by decide) (by decide) (by decide),
      Option.some_bind, SeekTrack_null_engine fifoApi 0 _ rfl rfl]
    rfl
  · have h : CloseAudioPlayerSystem loadedState =
        some { loadedState with
          timeStretcher := Ptr.dangling
          localAudioBuffer := { loadedState.localAudioBuffer with samples := Ptr.dangling }
          isSystemInitialized := false } := rfl
    rw [h, Option.some_bind]
    simp [SetTrackSpeed]

end Clipper
